import Mathlib

/-!
# Relay core of aiproxy: adaptor dispatch and request execution pipeline

A shallow embedding of `core/relay/controller/dohelper.go` and
`core/relay/adaptor/aws/adaptor.go`.

Conventions of the embedding.

* Go byte slices and Go strings used as payloads are lists of bytes.
* A Go `error` value is a small tree (`GoError`) on which `errors.Is` walks.
* A runtime panic (slice bound out of range, failed type assertion) is the
  `none` of an `Option`.
* Pointers that the pipeline shares with adaptors (`*meta.Meta`) are passed
  in and returned explicitly.
* Adaptor methods are fields of a structure; every theorem quantifies over them.
-/

/-! ## Basic data -/

/-- One byte. -/
abbrev Byte := Fin 256

/-- The four sentinel errors that `doRequest` tests for. -/
inductive Sentinel where
  | Canceled          -- context.Canceled
  | DeadlineExceeded  -- context.DeadlineExceeded
  | EOF               -- io.EOF
  | ErrUnexpectedEOF  -- io.ErrUnexpectedEOF
  deriving DecidableEq, Repr

/-- A Go error value: a sentinel, a fresh error (`errors.New`), an error wrapping
another one with its own text (`fmt.Errorf` with `%w`, `url.Error`, ...), or the
join of two errors (`errors.Join`). -/
inductive GoError where
  | sentinel (s : Sentinel)
  | new (msg : String)
  | wrap (msg : String) (inner : GoError)
  | join (a b : GoError)
  deriving DecidableEq, Repr

namespace Sentinel

/-- Text of the sentinel, as the Go standard library prints it. -/
def Error : Sentinel → String
  | Canceled => "context canceled"
  | DeadlineExceeded => "context deadline exceeded"
  | EOF => "EOF"
  | ErrUnexpectedEOF => "unexpected EOF"

end Sentinel

namespace GoError

/-- Go `err.Error()`. -/
def Error : GoError → String
  | sentinel s => s.Error
  | new msg => msg
  | wrap msg _ => msg
  | join a b => a.Error ++ "\n" ++ b.Error

end GoError

namespace errors

/-- Go `errors.Is(err, target)` for a sentinel target: depth-first walk of the
unwrap tree. -/
def Is : GoError → Sentinel → Bool
  | .sentinel s, t => decide (s = t)
  | .new _, _ => false
  | .wrap _ inner, t => Is inner t
  | .join a b, t => Is a t || Is b t

/-- Go `errors.New`. -/
def New (msg : String) : GoError := .new msg

end errors

/-! ## Capture buffer and capturing response writer -/

/-- Go constant `maxBufferSize = 512 * 1024`. -/
def maxBufferSize : Nat := 512 * 1024

/-- A `bytes.Buffer`: its unread contents and the capacity of its backing array. -/
structure Buffer where
  data : List Byte
  cap : Nat

namespace Buffer

/-- Go `bytes.NewBuffer(make([]byte, 0, n))`. -/
def New (n : Nat) : Buffer := { data := [], cap := n }

/-- Go `buf.Len()`. -/
def Len (buf : Buffer) : Nat := buf.data.length

/-- Go `buf.Cap()`. -/
def Cap (buf : Buffer) : Nat := buf.cap

/-- Go `buf.Write(p)` and `buf.WriteString(s)`: append; the backing array is kept
when the bytes fit and is reallocated larger otherwise (how much larger is up to
the Go library; nothing below depends on the amount). -/
def Write (buf : Buffer) (p : List Byte) : Buffer :=
  { data := buf.data ++ p
    cap := if buf.data.length + p.length ≤ buf.cap then buf.cap
           else 2 * buf.cap + p.length }

/-- Go `buf.String()`. -/
def String (buf : Buffer) : List Byte := buf.data

/-- Go `buf.Reset()`: empties the buffer, keeps the backing array. -/
def Reset (buf : Buffer) : Buffer := { data := [], cap := buf.cap }

end Buffer

/-- Go slice expression `b[:k]` with a signed bound: panics (`none`) when the bound
is negative or beyond the length. -/
def sliceTo (b : List Byte) (k : Int) : Option (List Byte) :=
  if 0 ≤ k ∧ k ≤ (b.length : Int) then some (b.take k.toNat) else none

/-- The pair `(n, err)` a writer returns. -/
structure WriteResult where
  n : Int
  err : Option GoError
  deriving DecidableEq, Repr

/-- One call on a writer: `Write(b)` or `WriteString(s)`, with its payload. -/
inductive Chunk where
  | bytes (b : List Byte)
  | str (s : List Byte)
  deriving DecidableEq, Repr

namespace Chunk

/-- Bytes carried by the call. -/
def payload : Chunk → List Byte
  | bytes b => b
  | str s => s

end Chunk

/-- Go `http.Header`, a map from key to value list, as an association list read
by first match. -/
abbrev Header := List (String × List String)

namespace Header

/-- Map index `h[key]`: the value list and whether the key is present. -/
def lookup (h : Header) (key : String) : Option (List String) := List.lookup key h

/-- Map assignment `h[key] = value`. -/
def assign (h : Header) (key : String) (value : List String) : Header :=
  (key, value) :: h.filter (fun e => e.1 != key)

/-- Map deletion `delete(h, key)`. -/
def delete (h : Header) (key : String) : Header := h.filter (fun e => e.1 != key)

/-- Go `h.Get(key)` for a key already in canonical form (such as the literal
`Content-Type`): first value under the key, or the empty string. -/
def Get (h : Header) (key : String) : String :=
  match h.lookup key with
  | some (v :: _) => v
  | _ => ""

/-- Go `h.Set(key, value)` for a key already in canonical form. -/
def Set (h : Header) (key : String) (value : String) : Header := h.assign key [value]

/-- The keys a `range` over the map visits. -/
def keys (h : Header) : List String := h.map Prod.fst

end Header

/-- The wrapped `gin.ResponseWriter`: an identity (which writer object it is), its
response header map, the calls it has received so far, in order, and its behaviour
(what it answers to a call, given what it received before). -/
structure Sink where
  id : Nat
  header : Header
  received : List Chunk
  reply : List Chunk → Chunk → WriteResult

namespace Sink

/-- Call `Write(b)` on the wrapped writer. -/
def Write (w : Sink) (b : List Byte) : Sink × WriteResult :=
  ({ w with received := w.received ++ [Chunk.bytes b] }, w.reply w.received (Chunk.bytes b))

/-- Call `WriteString(s)` on the wrapped writer. -/
def WriteString (w : Sink) (s : List Byte) : Sink × WriteResult :=
  ({ w with received := w.received ++ [Chunk.str s] }, w.reply w.received (Chunk.str s))

/-- The byte stream delivered to the client. -/
def delivered (w : Sink) : List Byte := w.received.flatMap Chunk.payload

end Sink

/-- Go `time.Time`: `none` is the zero time, `some t` a clock reading. -/
abbrev Time := Option Nat

/-- Go `type responseWriter struct`. -/
structure responseWriter where
  ResponseWriter : Sink
  body : Buffer
  firstByteAt : Time

namespace responseWriter

/-- Go `(rw *responseWriter) Write(b)`; `now` is what `time.Now()` reads at the call. -/
def Write (rw : responseWriter) (now : Nat) (b : List Byte) :
    Option (responseWriter × WriteResult) :=
  let firstByteAt := if rw.firstByteAt.isNone then some now else rw.firstByteAt
  let total := rw.body.Len + b.length
  let body? :=
    if total ≤ maxBufferSize then some (rw.body.Write b)
    else (sliceTo b ((maxBufferSize : Int) - (rw.body.Len : Int))).map rw.body.Write
  match body? with
  | none => none
  | some body =>
    let r := rw.ResponseWriter.Write b
    some ({ ResponseWriter := r.1, body := body, firstByteAt := firstByteAt }, r.2)

/-- Go `(rw *responseWriter) WriteString(s)`. -/
def WriteString (rw : responseWriter) (now : Nat) (s : List Byte) :
    Option (responseWriter × WriteResult) :=
  let firstByteAt := if rw.firstByteAt.isNone then some now else rw.firstByteAt
  let total := rw.body.Len + s.length
  let body? :=
    if total ≤ maxBufferSize then some (rw.body.Write s)
    else (sliceTo s ((maxBufferSize : Int) - (rw.body.Len : Int))).map rw.body.Write
  match body? with
  | none => none
  | some body =>
    let r := rw.ResponseWriter.WriteString s
    some ({ ResponseWriter := r.1, body := body, firstByteAt := firstByteAt }, r.2)

/-- One call on the capturing writer, by kind. -/
def call (rw : responseWriter) (now : Nat) : Chunk → Option (responseWriter × WriteResult)
  | .bytes b => rw.Write now b
  | .str s => rw.WriteString now s

/-- A sequence of calls on the capturing writer; the `i`-th call of the run reads
the clock `clock i`. Returns the final writer and the results handed back. -/
def writeAll (clock : Nat → Nat) : Nat → responseWriter → List Chunk →
    Option (responseWriter × List WriteResult)
  | _, rw, [] => some (rw, [])
  | i, rw, c :: cs =>
    match rw.call (clock i) c with
    | none => none
    | some (rw1, r) =>
      match writeAll clock (i + 1) rw1 cs with
      | none => none
      | some (rw2, rs) => some (rw2, r :: rs)

/-- The writer `handleResponse` builds: wrapped sink, a buffer, zero timestamp. -/
def fresh (w : Sink) (buf : Buffer) : responseWriter :=
  { ResponseWriter := w, body := buf, firstByteAt := none }

end responseWriter

/-! ## Records shared with the adaptors -/

/-- Modelled from the spec: `model.Usage` (declared outside the two source files):
eight counters of a 64-bit signed Go integer type, held here as integers;
arithmetic on them goes through `int64.add`, which wraps as Go does. -/
structure Usage where
  InputTokens : Int
  ImageInputTokens : Int
  OutputTokens : Int
  CachedTokens : Int
  CacheCreationTokens : Int
  ReasoningTokens : Int
  TotalTokens : Int
  WebSearchCount : Int
  deriving DecidableEq, Repr

namespace int64

/-- Go `math.MinInt64`. -/
def MinInt64 : Int := -9223372036854775808

/-- Go `math.MaxInt64`. -/
def MaxInt64 : Int := 9223372036854775807

/-- Reduction of an integer to the 64-bit signed range (two's complement). -/
def wrap (x : Int) : Int := (x + 9223372036854775808) % 18446744073709551616 - 9223372036854775808

/-- Go `a + b` on 64-bit signed integers: the sum, wrapped on overflow. -/
def add (a b : Int) : Int := wrap (a + b)

end int64

/-- Go `model.Usage{}`. -/
def Usage.zero : Usage :=
  { InputTokens := 0, ImageInputTokens := 0, OutputTokens := 0, CachedTokens := 0,
    CacheCreationTokens := 0, ReasoningTokens := 0, TotalTokens := 0, WebSearchCount := 0 }

/-- Go `relaymodel.Error`: the fields the pipeline sets. -/
structure RelayError where
  Message : String
  Code : String
  deriving DecidableEq, Repr

/-- Go `relaymodel.ErrorWithStatusCode`. -/
structure ErrorWithStatusCode where
  StatusCode : Nat
  Error : RelayError
  deriving DecidableEq, Repr

namespace http

def StatusBadRequest : Nat := 400
def StatusInternalServerError : Nat := 500
def StatusServiceUnavailable : Nat := 503
def StatusGatewayTimeout : Nat := 504

end http

namespace openai

/-- Modelled from the spec: `openai.ErrorCodeBadResponse` (declared outside the two
source files), the machine-readable code of a bad backend response. -/
def ErrorCodeBadResponse : String := "bad_response"

/-- Modelled from the spec: `openai.ErrorWrapperWithMessage(message, code, status)`
(declared outside the two source files) builds the structured error carrying that
status, message and code. -/
def ErrorWrapperWithMessage (message code : String) (statusCode : Nat) : ErrorWithStatusCode :=
  { StatusCode := statusCode, Error := { Message := message, Code := code } }

end openai

/-- Modelled from the spec: the operation modes of package `mode` that the pipeline
distinguishes, and any other mode by number. -/
inductive Mode where
  | AudioTranscription
  | AudioTranslation
  | ImagesEdits
  | other (n : Nat)
  deriving DecidableEq, Repr

/-- Go `model.ModelConfig`: the advertised model name and the timeout in seconds. -/
structure ModelConfig where
  Model : String
  Timeout : Int
  deriving DecidableEq, Repr

/-- Go `meta.Meta.Channel`. -/
structure ChannelMeta where
  BaseURL : String
  deriving DecidableEq, Repr

/-- A value of the extension store (`any`): a reference to a concrete AWS adaptor
(an index into the table of implementations), a list of names (`[]string`), or
something else. -/
inductive Value where
  | awsAdapter (ref : Nat)
  | names (l : List String)
  | other (tag : Nat)
  deriving DecidableEq, Repr

/-- Go `meta.Meta`: per-call context with its key/value extension store. -/
structure Meta where
  Mode : Mode
  ActualModel : String
  Channel : ChannelMeta
  ModelConfig : ModelConfig
  RequestUsage : Usage
  values : List (String × Value)
  deriving DecidableEq, Repr

namespace Meta

/-- Modelled from the spec: `meta.Set(key, value)` writes the extension store. -/
def Set (m : Meta) (key : String) (v : Value) : Meta :=
  { m with values := (key, v) :: m.values.filter (fun e => e.1 != key) }

/-- Modelled from the spec: `meta.Get(key)` reads the extension store; `none` is
the `ok = false` answer. -/
def Get (m : Meta) (key : String) : Option Value := List.lookup key m.values

end Meta

/-- Go `RequestDetail`. -/
structure RequestDetail where
  RequestBody : List Byte
  ResponseBody : List Byte
  FirstByteAt : Time
  deriving DecidableEq, Repr

/-- The inbound `http.Request` as the pipeline reads it: its header map and what
`common.GetRequestBody` answers for it. -/
structure Request where
  Header : Header
  BodyRead : Except GoError (List Byte)

/-- An `io.Reader` handed to the outbound request; `closable` says whether it is
also an `io.Closer`. -/
structure BodyReader where
  data : List Byte
  closable : Bool
  deriving DecidableEq, Repr

/-- The outbound `http.Request`: `Timeout` is the deadline of its context in
seconds, `none` for the plain background context. -/
structure OutRequest where
  Method : String
  URL : String
  Header : Header
  Body : Option BodyReader
  Timeout : Option Int
  deriving DecidableEq, Repr

/-- The backend `http.Response`. -/
structure Response where
  StatusCode : Nat
  Header : Header
  Body : List Byte
  deriving DecidableEq, Repr

/-- The four values `Adaptor.ConvertRequest` returns; `none` is Go `nil`. -/
structure ConvertResult where
  method : String
  header : Option Header
  body : Option BodyReader
  err : Option GoError
  deriving DecidableEq, Repr

/-- What a response handler does with the response sink it is given: it finishes
with `(usage, err)`, or calls `Write`/`WriteString` on `c.Writer` and goes on
according to the answer, or updates the `Meta` it holds a pointer to, or panics. -/
inductive RespProg where
  | ret (usage : Option Usage) (err : Option ErrorWithStatusCode)
  | panic
  | write (b : List Byte) (k : WriteResult → RespProg)
  | writeString (s : List Byte) (k : WriteResult → RespProg)
  | setMeta (m : Meta) (k : RespProg)

/-- Go `adaptor.Adaptor`: the capability interface. Methods that receive the
`*meta.Meta` return its new state. -/
structure Adaptor where
  GetBaseURL : String
  ConvertRequest : Meta → Request → Meta × ConvertResult
  GetRequestURL : Meta → Meta × String × Option GoError
  SetupRequestHeader : Meta → Request → OutRequest → Meta × OutRequest × Option GoError
  DoRequest : Meta → Request → OutRequest → Meta × Option Response × Option GoError
  DoResponse : Meta → Request → Response → RespProg
  GetModelList : List ModelConfig

/-- Adaptor methods, for the record of invocations. -/
inductive Call where
  | ConvertRequest
  | GetBaseURL
  | GetRequestURL
  | SetupRequestHeader
  | DoRequest
  | DoResponse
  deriving DecidableEq, Repr

/-- The structured log context `log.Data` of the call: named numeric fields. -/
abbrev Fields := List (String × Int)

namespace Fields

/-- Map assignment `log.Data[key] = v`. -/
def set (d : Fields) (key : String) (v : Int) : Fields :=
  (key, v) :: d.filter (fun e => e.1 != key)

/-- Map index `log.Data[key]`. -/
def get (d : Fields) (key : String) : Option Int := List.lookup key d

end Fields

/-- Which writer `c.Writer` is: the one the router installed, or the capturing
writer that `handleResponse` puts in its place around `DoResponse`. -/
inductive GinWriter where
  | raw (w : Sink)
  | capturing (rw : responseWriter)


/-- Collaborators of the pipeline that live outside the two source files. -/
structure Env where
  /-- `http.NewRequestWithContext` fails on some (method, url) pairs. -/
  NewRequestErr : String → String → Option GoError
  /-- `(*ErrorWithStatusCode).JSONOrEmpty()`: the JSON form of an error. -/
  JSONOrEmpty : ErrorWithStatusCode → List Byte
  /-- What `time.Now()` reads at the i-th call on the capturing writer. -/
  clock : Nat → Nat
  /-- Which pooled buffer `sync.Pool.Get` hands out (a fresh one if out of range). -/
  pick : Nat

/-! ## Buffer pool -/

/-- Go `getBuffer()`: a pooled buffer, or `bufferPool.New()` when none is taken. -/
def getBuffer (pool : List Buffer) (pick : Nat) : Buffer × List Buffer :=
  match pool.get? pick with
  | some buf => (buf, pool.eraseIdx pick)
  | none => (Buffer.New maxBufferSize, pool)

/-- Go `putBuffer(buf)`: returns the buffer as it is left and the pool. -/
def putBuffer (pool : List Buffer) (buf : Buffer) : Buffer × List Buffer :=
  let buf := buf.Reset
  if buf.Cap > maxBufferSize then (buf, pool)
  else (buf, buf :: pool)

/-! ## The pipeline -/

namespace strings

/-- Go `strings.Contains(s, substr)`. -/
def Contains (s substr : String) : Bool := decide (substr.data <:+: s.data)

end strings

namespace gin

/-- Go `c.Header(key, value)`: sets the response header, or deletes it when the
value is empty. -/
def Header (w : Sink) (key value : String) : Sink :=
  if value == "" then { w with header := w.header.delete key }
  else { w with header := w.header.Set key value }

end gin

/-- Go `gin.Context` between the stages of the pipeline: inbound request, the
response writer installed by the router, and the logger fields of
`middleware.GetLogger(c)`. -/
structure Context where
  Request : Request
  Writer : Sink
  logData : Fields

/-- Go `c.GetHeader(key)`. -/
def Context.GetHeader (c : Context) (key : String) : String := c.Request.Header.Get key

/-- Go `getRequestBody`: the detail record as left, and the error. -/
def getRequestBody (m : Meta) (c : Context) (detail : RequestDetail) :
    RequestDetail × Option ErrorWithStatusCode :=
  if m.Mode = Mode.AudioTranscription ∨ m.Mode = Mode.AudioTranslation ∨
      m.Mode = Mode.ImagesEdits then (detail, none)
  else if !strings.Contains (c.GetHeader "Content-Type") "/json" then (detail, none)
  else
    match c.Request.BodyRead with
    | .error err =>
      (detail, some (openai.ErrorWrapperWithMessage ("get request body failed: " ++ err.Error)
        "get_request_body_failed" http.StatusBadRequest))
    | .ok reqBody => ({ detail with RequestBody := reqBody }, none)

namespace http

/-- Go `http.NewRequestWithContext(ctx, method, url, body)`: a request with an
empty header map, or the error. An empty method means GET. -/
def NewRequestWithContext (env : Env) (timeout : Option Int) (method url : String)
    (body : Option BodyReader) : Except GoError OutRequest :=
  match env.NewRequestErr method url with
  | some err => .error err
  | none =>
    .ok { Method := if method == "" then "GET" else method, URL := url, Header := [],
          Body := body, Timeout := timeout }

end http

/-- The loop `for key, value := range header { req.Header[key] = value }`; a nil
map has no keys. -/
def mergeHeader (h : Header) : Option Header → Header
  | none => h
  | some header => header.keys.foldl (fun acc key => acc.assign key ((header.lookup key).getD [])) h

/-- The outbound header map of `setupRequestHeader` at the point where
`a.SetupRequestHeader` is called. -/
def assembledHeader (req : OutRequest) (header : Option Header) : Header :=
  let contentType := req.Header.Get "Content-Type"
  let contentType := if contentType == "" then "application/json; charset=utf-8" else contentType
  mergeHeader (req.Header.Set "Content-Type" contentType) header

/-- Go `setupRequestHeader`: the Meta and request as left, and the error. -/
def setupRequestHeader (a : Adaptor) (c : Context) (m : Meta) (req : OutRequest)
    (header : Option Header) : Meta × OutRequest × Option ErrorWithStatusCode :=
  let req := { req with Header := assembledHeader req header }
  match a.SetupRequestHeader m c.Request req with
  | (m1, req1, some err) =>
    (m1, req1, some (openai.ErrorWrapperWithMessage ("setup request header failed: " ++ err.Error)
      "setup_request_header_failed" http.StatusInternalServerError))
  | (m1, req1, none) => (m1, req1, none)

/-- Go `doRequest`: the Meta as left, the response and the error. -/
def doRequest (a : Adaptor) (c : Context) (m : Meta) (req : OutRequest) :
    Meta × Option Response × Option ErrorWithStatusCode :=
  match a.DoRequest m c.Request req with
  | (m1, _, some err) =>
    if errors.Is err Sentinel.Canceled then
      (m1, none, some (openai.ErrorWrapperWithMessage
        "do request failed: request canceled by client" "request_canceled" http.StatusBadRequest))
    else if errors.Is err Sentinel.DeadlineExceeded then
      (m1, none, some (openai.ErrorWrapperWithMessage
        "do request failed: request timeout" "request_timeout" http.StatusGatewayTimeout))
    else if errors.Is err Sentinel.EOF then
      (m1, none, some (openai.ErrorWrapperWithMessage
        ("do request failed: " ++ err.Error) "request_failed" http.StatusServiceUnavailable))
    else if errors.Is err Sentinel.ErrUnexpectedEOF then
      (m1, none, some (openai.ErrorWrapperWithMessage
        ("do request failed: " ++ err.Error) "request_failed" http.StatusInternalServerError))
    else
      (m1, none, some (openai.ErrorWrapperWithMessage
        ("do request failed: " ++ err.Error) "request_failed" http.StatusBadRequest))
  | (m1, resp, none) => (m1, resp, none)

/-- What `prepareAndDoRequest` leaves: the Meta, the adaptor methods it invoked in
order, and its two results. -/
structure PrepareOut where
  meta : Meta
  calls : List Call
  resp : Option Response
  err : Option ErrorWithStatusCode

/-- Go `prepareAndDoRequest`. The deferred `closer.Close()` and `cancel()` and the
debug log line leave nothing that the pipeline reads and are not represented. -/
def prepareAndDoRequest (env : Env) (a : Adaptor) (c : Context) (m : Meta) : PrepareOut :=
  match a.ConvertRequest m c.Request with
  | (m1, cr) =>
  match cr.err with
  | some err =>
    { meta := m1, calls := [Call.ConvertRequest], resp := none,
      err := some (openai.ErrorWrapperWithMessage ("convert request failed: " ++ err.Error)
        "convert_request_failed" http.StatusBadRequest) }
  | none =>
  let calls := [Call.ConvertRequest]
  let (m2, calls) :=
    if m1.Channel.BaseURL == "" then
      ({ m1 with Channel := { BaseURL := a.GetBaseURL } }, calls ++ [Call.GetBaseURL])
    else (m1, calls)
  match a.GetRequestURL m2 with
  | (m3, _, some err) =>
    { meta := m3, calls := calls ++ [Call.GetRequestURL], resp := none,
      err := some (openai.ErrorWrapperWithMessage ("get request url failed: " ++ err.Error)
        "get_request_url_failed" http.StatusBadRequest) }
  | (m3, fullRequestURL, none) =>
  let calls := calls ++ [Call.GetRequestURL]
  let timeout := m3.ModelConfig.Timeout
  let ctx : Option Int := if timeout > 0 then some timeout else none
  match http.NewRequestWithContext env ctx cr.method fullRequestURL cr.body with
  | .error err =>
    { meta := m3, calls := calls, resp := none,
      err := some (openai.ErrorWrapperWithMessage ("new request failed: " ++ err.Error)
        "new_request_failed" http.StatusBadRequest) }
  | .ok req =>
  match setupRequestHeader a c m3 req cr.header with
  | (m4, _, some err) =>
    { meta := m4, calls := calls ++ [Call.SetupRequestHeader], resp := none, err := some err }
  | (m4, req1, none) =>
  match doRequest a c m4 req1 with
  | (m5, resp, err) =>
    { meta := m5, calls := calls ++ [Call.SetupRequestHeader, Call.DoRequest],
      resp := resp, err := err }

/-- What a run of a response handler leaves. -/
structure RunOut where
  rw : responseWriter
  meta : Meta
  usage : Option Usage
  err : Option ErrorWithStatusCode

namespace RespProg

/-- Run a response handler against the capturing writer installed in `c.Writer`;
`i` counts the calls made on the writer so far. A panic of the writer ends the
run with `none`. -/
def run (clock : Nat → Nat) : RespProg → Nat → responseWriter → Meta → Option RunOut
  | ret usage err, _, rw, m => some { rw := rw, meta := m, usage := usage, err := err }
  | panic, _, _, _ => none
  | write b k, i, rw, m =>
    match rw.Write (clock i) b with
    | none => none
    | some (rw1, r) => run clock (k r) (i + 1) rw1 m
  | writeString s k, i, rw, m =>
    match rw.WriteString (clock i) s with
    | none => none
    | some (rw1, r) => run clock (k r) (i + 1) rw1 m
  | setMeta m1 k, i, rw, _ => run clock k i rw m1

end RespProg

/-- What `handleResponse` leaves: its two results, the detail record, the Meta,
the context, the writer `c.Writer` is on return, the buffer as handed to the pool
and the pool. -/
structure HandleOut where
  usage : Usage
  err : Option ErrorWithStatusCode
  detail : RequestDetail
  meta : Meta
  c : Context
  installed : GinWriter
  released : Buffer
  pool : List Buffer

/-- Go `handleResponse`. -/
def handleResponse (env : Env) (a : Adaptor) (c : Context) (m : Meta) (resp : Response)
    (detail : RequestDetail) (pool : List Buffer) : Option HandleOut :=
  match getBuffer pool env.pick with
  | (buf, pool1) =>
  let rawWriter := c.Writer
  let rw : responseWriter := { ResponseWriter := rawWriter, body := buf, firstByteAt := none }
  -- c.Writer = rw; c.Header("Content-Type", resp.Header.Get("Content-Type"))
  let sink := gin.Header rw.ResponseWriter "Content-Type" (resp.Header.Get "Content-Type")
  let rw : responseWriter := { rw with ResponseWriter := sink }
  match (a.DoResponse m c.Request resp).run env.clock 0 rw m with
  | none => none
  | some out =>
    let detail : RequestDetail :=
      match out.err with
      | some relayErr => { detail with ResponseBody := env.JSONOrEmpty relayErr }
      | none => { detail with ResponseBody := out.rw.body.String }
    let result : Usage × Option ErrorWithStatusCode :=
      match out.usage, out.err with
      | some usage, relayErr => (usage, relayErr)
      | none, some relayErr => (Usage.zero, some relayErr)
      | none, none => (out.meta.RequestUsage, none)
    -- deferred: c.Writer = rawWriter; detail.FirstByteAt = rw.firstByteAt; putBuffer(buf)
    let detail := { detail with FirstByteAt := out.rw.firstByteAt }
    match putBuffer pool1 out.rw.body with
    | (released, pool2) =>
      some { usage := result.1, err := result.2, detail := detail, meta := out.meta,
             c := { c with Writer := out.rw.ResponseWriter },
             installed := GinWriter.raw out.rw.ResponseWriter,
             released := released, pool := pool2 }

/-- The usage as normalised inside `updateUsageMetrics` (its by-value parameter). -/
def normalizedUsage (usage : Usage) : Usage :=
  if usage.TotalTokens = 0 then
    { usage with TotalTokens := int64.add usage.InputTokens usage.OutputTokens }
  else usage

/-- The statement `if v > 0 { log.Data[key] = v }`. -/
def Fields.setIfPositive (log : Fields) (key : String) (v : Int) : Fields :=
  if v > 0 then log.set key v else log

/-- Go `updateUsageMetrics`: the logger fields as left. -/
def updateUsageMetrics (usage : Usage) (log : Fields) : Fields :=
  let usage := normalizedUsage usage
  let log := log.setIfPositive "t_input" usage.InputTokens
  let log := log.setIfPositive "t_image_input" usage.ImageInputTokens
  let log := log.setIfPositive "t_output" usage.OutputTokens
  let log := log.set "t_total" usage.TotalTokens
  let log := log.setIfPositive "t_cached" usage.CachedTokens
  let log := log.setIfPositive "t_cache_creation" usage.CacheCreationTokens
  let log := log.setIfPositive "t_reason" usage.ReasoningTokens
  let log := log.setIfPositive "t_websearch" usage.WebSearchCount
  log

/-- What `DoHelper` returns (usage, detail, error) and what it leaves: the Meta,
the context, the pool and the adaptor methods invoked, in order. -/
structure Outcome where
  usage : Usage
  detail : Option RequestDetail
  err : Option ErrorWithStatusCode
  meta : Meta
  c : Context
  pool : List Buffer
  calls : List Call

/-- Go `RequestDetail{}`. -/
def RequestDetail.empty : RequestDetail :=
  { RequestBody := [], ResponseBody := [], FirstByteAt := none }

/-- Go `DoHelper`. The deferred `resp.Body.Close()` is not represented. -/
def DoHelper (env : Env) (a : Adaptor) (c : Context) (m : Meta) (pool : List Buffer) :
    Option Outcome :=
  let detail := RequestDetail.empty
  -- 1. Get request body
  match getRequestBody m c detail with
  | (_, some err) =>
    some { usage := Usage.zero, detail := none, err := some err, meta := m, c := c,
           pool := pool, calls := [] }
  | (detail, none) =>
  -- 2. Convert and prepare request
  let p := prepareAndDoRequest env a c m
  match p.err with
  | some err =>
    some { usage := Usage.zero, detail := some detail, err := some err, meta := p.meta, c := c,
           pool := pool, calls := p.calls }
  | none =>
  -- 3. Handle error response
  match p.resp with
  | none =>
    let relayErr := openai.ErrorWrapperWithMessage "response is nil"
      openai.ErrorCodeBadResponse http.StatusInternalServerError
    let detail := { detail with ResponseBody := env.JSONOrEmpty relayErr }
    some { usage := Usage.zero, detail := some detail, err := some relayErr, meta := p.meta,
           c := c, pool := pool, calls := p.calls }
  | some resp =>
  -- 4. Handle success response
  match handleResponse env a c p.meta resp detail pool with
  | none => none
  | some h =>
    match h.err with
    | some relayErr =>
      some { usage := Usage.zero, detail := some h.detail, err := some relayErr, meta := h.meta,
             c := h.c, pool := h.pool, calls := p.calls ++ [Call.DoResponse] }
    | none =>
      -- 5. Update usage metrics
      some { usage := h.usage, detail := some h.detail, err := none, meta := h.meta,
             c := { h.c with logData := updateUsageMetrics h.usage h.c.logData },
             pool := h.pool, calls := p.calls ++ [Call.DoResponse] }

/-! ## The AWS family adaptor -/

namespace aws

/-- Go `utils.AwsAdapter`: the interface of a concrete per-model adaptor. -/
structure AwsAdapter where
  ConvertRequest : Meta → Request → Meta × ConvertResult
  DoResponse : Meta → Request → RespProg

/-- Modelled from the spec: a registry entry (declared outside the two source
files) pairs the model config it advertises with a concrete adaptor instance,
here a reference into the table of implementations. -/
structure ModelAdaptor where
  config : ModelConfig
  adaptor : Nat
  deriving DecidableEq, Repr

/-- Modelled from the spec: the static registry `adaptors` (declared outside the
two source files), a map from model name to entry, and what each concrete
adaptor reference denotes. A map has no two entries under one key. -/
structure Registry where
  adaptors : List (String × ModelAdaptor)
  nodup : (adaptors.map Prod.fst).Nodup
  impls : Nat → AwsAdapter

/-- Modelled from the spec: `GetAdaptor(model)` (declared outside the two source
files) looks the concrete adaptor up by exact model name; `none` is Go `nil`. -/
def GetAdaptor (reg : Registry) (model : String) : Option Nat :=
  (List.lookup model reg.adaptors).map ModelAdaptor.adaptor

/-- What the family `ConvertRequest` leaves: the Meta, the four returned values and
the concrete adaptors it invoked. -/
structure ConvertOut where
  meta : Meta
  result : ConvertResult
  invoked : List Nat

namespace Adaptor

/-- Go `(a *Adaptor) GetBaseURL()`. -/
def GetBaseURL : String := ""

/-- Go `(a *Adaptor) ConvertRequest(meta, req)`. -/
def ConvertRequest (reg : Registry) (m : Meta) (req : Request) : ConvertOut :=
  match GetAdaptor reg m.ActualModel with
  | none =>
    { meta := m,
      result := { method := "", header := none, body := none,
                  err := some (errors.New "adaptor not found") },
      invoked := [] }
  | some adaptor =>
    let m1 := m.Set "awsAdapter" (Value.awsAdapter adaptor)
    match (reg.impls adaptor).ConvertRequest m1 req with
    | (m2, result) => { meta := m2, result := result, invoked := [adaptor] }

/-- Go `(a *Adaptor) DoResponse(meta, c, _)`; the unchecked type assertion panics
on a stored value that is not an `AwsAdapter`. -/
def DoResponse (reg : Registry) (m : Meta) (req : Request) (_ : Response) : RespProg :=
  match m.Get "awsAdapter" with
  | none =>
    RespProg.ret none (some { StatusCode := http.StatusInternalServerError,
                              Error := { Message := "awsAdapter not found", Code := "" } })
  | some (Value.awsAdapter adaptor) => (reg.impls adaptor).DoResponse m req
  | some (Value.names _) => RespProg.panic
  | some (Value.other _) => RespProg.panic

/-- Go `(a *Adaptor) GetModelList()`: the configs in the order the range over the
registry visits its entries. -/
def GetModelList (reg : Registry) : List ModelConfig :=
  reg.adaptors.foldl (fun models e => models ++ [e.2.config]) []

/-- Go `(a *Adaptor) GetRequestURL(_)`. -/
def GetRequestURL (m : Meta) : Meta × String × Option GoError := (m, "", none)

/-- Go `(a *Adaptor) SetupRequestHeader(_, _, _)`. -/
def SetupRequestHeader (m : Meta) (_ : Request) (req : OutRequest) :
    Meta × OutRequest × Option GoError := (m, req, none)

/-- Go `(a *Adaptor) DoRequest(_, _, _)`. -/
def DoRequest (m : Meta) (_ : Request) (_ : OutRequest) :
    Meta × Option Response × Option GoError := (m, none, none)

end Adaptor

end aws

/-- The AWS family `*aws.Adaptor` as a value of the `adaptor.Adaptor` interface. -/
def awsFamily (reg : aws.Registry) : Adaptor :=
  { GetBaseURL := aws.Adaptor.GetBaseURL
    ConvertRequest := fun m req =>
      ((aws.Adaptor.ConvertRequest reg m req).meta, (aws.Adaptor.ConvertRequest reg m req).result)
    GetRequestURL := aws.Adaptor.GetRequestURL
    SetupRequestHeader := aws.Adaptor.SetupRequestHeader
    DoRequest := aws.Adaptor.DoRequest
    DoResponse := aws.Adaptor.DoResponse reg
    GetModelList := aws.Adaptor.GetModelList reg }

/-! ## Adaptors that record their own invocations

An adaptor can keep, in the extension store of the Meta it is handed, the list of
its methods that have run on that Meta. `recording a` behaves as `a` and does so:
what the store holds afterwards is written by the invocations themselves. -/

namespace Call

/-- The Go name of an adaptor method. -/
def name : Call → String
  | ConvertRequest => "ConvertRequest"
  | GetBaseURL => "GetBaseURL"
  | GetRequestURL => "GetRequestURL"
  | SetupRequestHeader => "SetupRequestHeader"
  | DoRequest => "DoRequest"
  | DoResponse => "DoResponse"

end Call

/-- The store key under which a recording adaptor keeps the names of its methods
that have run. -/
def traceKey : String := "adaptorCalls"

namespace Meta

/-- The names recorded in the store so far. -/
def trace (m : Meta) : List String :=
  match m.Get traceKey with
  | some (Value.names l) => l
  | _ => []

/-- The Meta `after` a method has run on `before`, with the name of the method
added to the names recorded in `before`. -/
def record (before : Meta) (name : String) (after : Meta) : Meta :=
  after.Set traceKey (Value.names (before.trace ++ [name]))

end Meta

namespace RespProg

/-- A response handler that keeps the recorded names `t` in the store whenever it
updates the Meta. -/
def recording (t : List String) : RespProg → RespProg
  | ret usage err => ret usage err
  | panic => panic
  | write b k => write b (fun r => (k r).recording t)
  | writeString s k => writeString s (fun r => (k r).recording t)
  | setMeta m1 k => setMeta (m1.Set traceKey (Value.names t)) (k.recording t)

end RespProg

/-- The adaptor `a`, each of whose methods that is handed the Meta also records
its own name in the store on entry (`GetBaseURL` is handed nothing and records
nothing). -/
def recording (a : Adaptor) : Adaptor :=
  { GetBaseURL := a.GetBaseURL
    ConvertRequest := fun m req =>
      (Meta.record m "ConvertRequest" (a.ConvertRequest m req).1, (a.ConvertRequest m req).2)
    GetRequestURL := fun m =>
      (Meta.record m "GetRequestURL" (a.GetRequestURL m).1, (a.GetRequestURL m).2)
    SetupRequestHeader := fun m r q =>
      (Meta.record m "SetupRequestHeader" (a.SetupRequestHeader m r q).1,
       (a.SetupRequestHeader m r q).2)
    DoRequest := fun m r q =>
      (Meta.record m "DoRequest" (a.DoRequest m r q).1, (a.DoRequest m r q).2)
    DoResponse := fun m r resp =>
      RespProg.setMeta (m.Set traceKey (Value.names (m.trace ++ ["DoResponse"])))
        ((a.DoResponse m r resp).recording (m.trace ++ ["DoResponse"]))
    GetModelList := a.GetModelList }

/-! ## Reference behaviour without the capture layer -/

namespace Sink

/-- One call on the wrapped writer, by kind. -/
def call (w : Sink) : Chunk → Sink × WriteResult
  | .bytes b => w.Write b
  | .str s => w.WriteString s

/-- A sequence of calls made directly on the wrapped writer. -/
def writeAll : Sink → List Chunk → Sink × List WriteResult
  | w, [] => (w, [])
  | w, c :: cs =>
    let r := w.call c
    let rest := writeAll r.1 cs
    (rest.1, r.2 :: rest.2)

end Sink

/-- What a response handler leaves when it runs directly against the wrapped
writer: the writer, the Meta, its two results and the calls it made. -/
structure ExecOut where
  sink : Sink
  meta : Meta
  usage : Option Usage
  err : Option ErrorWithStatusCode
  written : List Chunk

namespace RespProg

/-- Run a response handler directly against the wrapped writer, with no capture
layer in between; `none` only when the handler itself panics. -/
def exec : RespProg → Sink → Meta → Option ExecOut
  | ret usage err, w, m =>
    some { sink := w, meta := m, usage := usage, err := err, written := [] }
  | panic, _, _ => none
  | write b k, w, m =>
    match exec (k (w.Write b).2) (w.Write b).1 m with
    | none => none
    | some o => some { o with written := Chunk.bytes b :: o.written }
  | writeString s k, w, m =>
    match exec (k (w.WriteString s).2) (w.WriteString s).1 m with
    | none => none
    | some o => some { o with written := Chunk.str s :: o.written }
  | setMeta m1 k, w, _ => exec k w m1

end RespProg

/-- A capturing writer whose buffer is exactly full, over a sink that accepts
everything. -/
def fullWriter : responseWriter :=
  { ResponseWriter := { id := 0, header := [], received := [],
                        reply := fun _ c => { n := c.payload.length, err := none } }
    body := { data := List.replicate maxBufferSize 0, cap := maxBufferSize }
    firstByteAt := some 1 }

/-! ## Sample inputs -/

/-- A wrapped writer that accepts every call in full. -/
def sampleSink : Sink :=
  { id := 0, header := [], received := [],
    reply := fun _ c => { n := c.payload.length, err := none } }

/-- A JSON request with a three-byte body. -/
def sampleRequest : Request :=
  { Header := [("Content-Type", ["application/json"])], BodyRead := .ok [1, 2, 3] }

/-- A call context around `sampleRequest`. -/
def sampleContext : Context :=
  { Request := sampleRequest, Writer := sampleSink, logData := [] }

/-- A chat-style call for model `c`, no timeout, empty extension store. -/
def sampleMeta : Meta :=
  { Mode := Mode.other 1, ActualModel := "c", Channel := { BaseURL := "https://backend" },
    ModelConfig := { Model := "c", Timeout := 0 }, RequestUsage := Usage.zero, values := [] }

/-- An outbound request. -/
def sampleOutRequest : OutRequest :=
  { Method := "POST", URL := "https://backend/v1", Header := [], Body := none, Timeout := none }

/-- An adaptor whose every stage succeeds except `DoRequest`, which fails with a
transport error wrapping `context.DeadlineExceeded`. -/
def timeoutAdaptor : Adaptor :=
  { GetBaseURL := "https://backend"
    ConvertRequest := fun m _ => (m, { method := "POST", header := none, body := none, err := none })
    GetRequestURL := fun m => (m, "https://backend/v1", none)
    SetupRequestHeader := fun m _ req => (m, req, none)
    DoRequest := fun m _ _ =>
      (m, none, some (GoError.wrap "Post https://backend/v1: context deadline exceeded"
        (GoError.sentinel Sentinel.DeadlineExceeded)))
    DoResponse := fun _ _ _ => RespProg.ret none none
    GetModelList := [] }

/-- Collaborators for the samples: every request can be built, the JSON form of
an error is a fixed two-byte text, the clock reads the call index. -/
def sampleEnv : Env :=
  { NewRequestErr := fun _ _ => none, JSONOrEmpty := fun _ => [123, 125],
    clock := fun i => i, pick := 0 }

/-- A usage of 3 input and 5 output tokens with the total left at zero. -/
def sampleUsage : Usage := { Usage.zero with InputTokens := 3, OutputTokens := 5 }

/-- An adaptor whose every stage succeeds: the backend answers 200 and the
response handler writes three bytes and reports `sampleUsage`. -/
def okAdaptor : Adaptor :=
  { GetBaseURL := "https://backend"
    ConvertRequest := fun m _ => (m, { method := "POST", header := none, body := none, err := none })
    GetRequestURL := fun m => (m, "https://backend/v1", none)
    SetupRequestHeader := fun m _ req => (m, req, none)
    DoRequest := fun m _ _ => (m, some { StatusCode := 200, Header := [], Body := [] }, none)
    DoResponse := fun _ _ _ =>
      RespProg.write [7, 8, 9] (fun _ => RespProg.ret (some sampleUsage) none)
    GetModelList := [] }

/-- A call context around a JSON request with the given body. -/
def jsonContext (body : List Byte) : Context :=
  { Request := { Header := [("Content-Type", ["application/json"])], BodyRead := .ok body },
    Writer := sampleSink, logData := [] }

/-- A JSON request whose body is one byte longer than the capture ceiling. -/
def bigContext : Context := jsonContext (List.replicate (maxBufferSize + 1) 0)

/-- As `okAdaptor`, but the response handler writes one chunk that is one byte
longer than the capture ceiling. -/
def floodAdaptor : Adaptor :=
  { okAdaptor with
    DoResponse := fun _ _ _ =>
      RespProg.write (List.replicate (maxBufferSize + 1) 0)
        (fun _ => RespProg.ret (some sampleUsage) none) }

/-- As `okAdaptor`, but `DoRequest` returns no response and no error. -/
def nilResponseAdaptor : Adaptor :=
  { okAdaptor with DoRequest := fun m _ _ => (m, none, none) }

/-- A structured error a response handler may report. -/
def sampleRelayError : ErrorWithStatusCode :=
  { StatusCode := 502, Error := { Message := "upstream failed", Code := "upstream_error" } }

/-- As `okAdaptor`, but the response handler reports both a usage and an error. -/
def usageAndErrorAdaptor : Adaptor :=
  { okAdaptor with
    DoResponse := fun _ _ _ => RespProg.ret (some sampleUsage) (some sampleRelayError) }

/-- A concrete AWS adaptor that converts to a POST and reports `sampleUsage`. -/
def plainAwsAdapter : aws.AwsAdapter :=
  { ConvertRequest := fun m _ =>
      (m, { method := "POST", header := some [], body := none, err := none })
    DoResponse := fun _ _ => RespProg.ret (some sampleUsage) none }

/-- A concrete AWS adaptor that keeps a note of its own in the store, under its
own key, when it converts, and writes two bytes when it answers. -/
def notingAwsAdapter : aws.AwsAdapter :=
  { ConvertRequest := fun m _ =>
      (m.Set "convertedRequest" (Value.other 7),
       { method := "POST", header := some [], body := none, err := none })
    DoResponse := fun _ _ =>
      RespProg.write [1, 2] (fun _ => RespProg.ret (some sampleUsage) none) }

/-- A registry with the models `a` and `b`: `a` is served by `plainAwsAdapter`
(reference 0) and `b` by `notingAwsAdapter` (reference 1). -/
def sampleRegistry : aws.Registry :=
  { adaptors := [("a", { config := { Model := "a", Timeout := 0 }, adaptor := 0 }),
                 ("b", { config := { Model := "b", Timeout := 0 }, adaptor := 1 })]
    nodup := by decide
    impls := fun ref => if ref = 1 then notingAwsAdapter else plainAwsAdapter }

/-- A backend response. -/
def sampleResponse : Response := { StatusCode := 200, Header := [], Body := [] }

/-- An audio-transcription call whose inbound body cannot be read. -/
def audioMeta : Meta := { sampleMeta with Mode := Mode.AudioTranscription }

/-- A JSON request whose body reader fails. -/
def unreadableContext : Context :=
  { Request := { Header := [("Content-Type", ["application/json"])],
                 BodyRead := .error (GoError.sentinel Sentinel.ErrUnexpectedEOF) },
    Writer := sampleSink, logData := [] }

/-- The invariant of the pool: every pooled buffer is empty and its capacity is
within the ceiling. -/
def poolInvariant (pool : List Buffer) : Prop :=
  ∀ b ∈ pool, b.Len = 0 ∧ b.Cap ≤ maxBufferSize

/-- An operation on the pool: `getBuffer()` with the pooled buffer the pool
chooses to hand out, or `putBuffer(buf)`. -/
inductive PoolOp where
  | get (pick : Nat)
  | put (buf : Buffer)

/-- The pool after one operation. -/
def PoolOp.apply (pool : List Buffer) : PoolOp → List Buffer
  | PoolOp.get pick => (getBuffer pool pick).2
  | PoolOp.put buf => (putBuffer pool buf).2

/-- The pool after a sequence of operations. -/
def runPool (ops : List PoolOp) (pool : List Buffer) : List Buffer :=
  ops.foldl PoolOp.apply pool

/-- A buffer that holds three bytes in a backing array grown beyond the ceiling. -/
def grownBuffer : Buffer := { data := [1, 2, 3], cap := 2 * maxBufferSize + 7 }

/-- The five stages of a call that are adaptor methods, in pipeline order. -/
def stageOrder : List Call :=
  [Call.ConvertRequest, Call.GetRequestURL, Call.SetupRequestHeader, Call.DoRequest,
   Call.DoResponse]

/-- The stage methods among the adaptor methods invoked (`GetBaseURL`, a lookup of
the default origin between two stages, is left out). -/
def stagesOf (calls : List Call) : List Call :=
  calls.filter (fun k => k != Call.GetBaseURL)

/-- Adaptor-returned headers: an API key and a content type under a lower-case
key. -/
def sampleAdaptorHeader : Header :=
  [("X-Api-Key", ["secret"]), ("content-type", ["text/plain"])]

/-- The registry of `sampleRegistry` with its two entries listed the other way
round. -/
def swappedRegistry : aws.Registry :=
  { adaptors := [("b", { config := { Model := "b", Timeout := 0 }, adaptor := 1 }),
                 ("a", { config := { Model := "a", Timeout := 0 }, adaptor := 0 })]
    nodup := by decide
    impls := sampleRegistry.impls }

/-- All eight counters are non-negative. -/
def Usage.nonneg (u : Usage) : Prop :=
  0 ≤ u.InputTokens ∧ 0 ≤ u.ImageInputTokens ∧ 0 ≤ u.OutputTokens ∧ 0 ≤ u.CachedTokens ∧
  0 ≤ u.CacheCreationTokens ∧ 0 ≤ u.ReasoningTokens ∧ 0 ≤ u.TotalTokens ∧ 0 ≤ u.WebSearchCount

/-! ## Lemmas on the capturing writer -/

theorem sliceTo_of_le (b : List Byte) (k : Nat) (h : k ≤ b.length) :
    sliceTo b (k : Int) = some (b.take k) := by
  unfold sliceTo
  rw [if_pos ⟨Int.natCast_nonneg k, by exact_mod_cast h⟩]
  simp

/-- The capture step common to `Write` and `WriteString`, on a buffer within the
ceiling: it does not panic and keeps the first `maxBufferSize` bytes. -/
theorem capture_step (body : Buffer) (p : List Byte) (h : body.Len ≤ maxBufferSize) :
    ∃ body1 : Buffer,
      (if body.Len + p.length ≤ maxBufferSize then some (body.Write p)
        else (sliceTo p ((maxBufferSize : Int) - (body.Len : Int))).map body.Write) = some body1 ∧
      body1.data = (body.data ++ p).take maxBufferSize := by
  by_cases hfit : body.Len + p.length ≤ maxBufferSize
  · refine ⟨body.Write p, by rw [if_pos hfit], ?_⟩
    have hlen : (body.data ++ p).length ≤ maxBufferSize := by
      simpa [Buffer.Len] using hfit
    rw [List.take_of_length_le hlen]
    rfl
  · have hk : ((maxBufferSize : Int) - (body.Len : Int)) = ((maxBufferSize - body.Len : Nat) : Int) := by
      omega
    have hle : maxBufferSize - body.Len ≤ p.length := by omega
    refine ⟨body.Write (p.take (maxBufferSize - body.Len)), ?_, ?_⟩
    · rw [if_neg hfit, hk, sliceTo_of_le p _ hle]
      rfl
    · have hb : body.data.length ≤ maxBufferSize := h
      show body.data ++ p.take (maxBufferSize - body.Len) = _
      rw [List.take_append_eq_append_take, List.take_of_length_le hb]
      rfl

theorem responseWriter.call_spec (rw : responseWriter) (now : Nat) (c : Chunk)
    (h : rw.body.Len ≤ maxBufferSize) :
    ∃ body1 : Buffer,
      rw.call now c =
        some ({ ResponseWriter :=
                  { rw.ResponseWriter with received := rw.ResponseWriter.received ++ [c] },
                body := body1,
                firstByteAt := if rw.firstByteAt.isNone then some now else rw.firstByteAt },
              rw.ResponseWriter.reply rw.ResponseWriter.received c) ∧
      body1.data = (rw.body.data ++ c.payload).take maxBufferSize := by
  cases c with
  | bytes b =>
    obtain ⟨body1, h1, h2⟩ := capture_step rw.body b h
    refine ⟨body1, ?_, h2⟩
    simp only [responseWriter.call, responseWriter.Write, h1, Sink.Write]
  | str s =>
    obtain ⟨body1, h1, h2⟩ := capture_step rw.body s h
    refine ⟨body1, ?_, h2⟩
    simp only [responseWriter.call, responseWriter.WriteString, h1, Sink.WriteString]

theorem responseWriter.writeAll_spec (clock : Nat → Nat) (cs : List Chunk) :
    ∀ (i : Nat) (rw : responseWriter), rw.body.Len ≤ maxBufferSize →
      ∃ (rw1 : responseWriter) (rs : List WriteResult),
        responseWriter.writeAll clock i rw cs = some (rw1, rs) ∧
        rw1.body.data = (rw.body.data ++ cs.flatMap Chunk.payload).take maxBufferSize ∧
        (rw1.ResponseWriter, rs) = rw.ResponseWriter.writeAll cs ∧
        rw1.ResponseWriter.received = rw.ResponseWriter.received ++ cs := by
  induction cs with
  | nil =>
    intro i rw h
    refine ⟨rw, [], rfl, ?_, rfl, by simp⟩
    have hb : rw.body.data.length ≤ maxBufferSize := h
    simp [List.take_of_length_le hb]
  | cons c cs ih =>
    intro i rw h
    obtain ⟨body1, hcall, hdata⟩ := responseWriter.call_spec rw (clock i) c h
    have hlen : (Buffer.Len body1) ≤ maxBufferSize := by
      show body1.data.length ≤ maxBufferSize
      rw [hdata, List.length_take]
      exact Nat.min_le_left _ _
    obtain ⟨rw2, rs, hrun, hd2, hsink, hrecv⟩ := ih (i + 1)
      { ResponseWriter := { rw.ResponseWriter with received := rw.ResponseWriter.received ++ [c] },
        body := body1,
        firstByteAt := if rw.firstByteAt.isNone then some (clock i) else rw.firstByteAt } hlen
    refine ⟨rw2, rw.ResponseWriter.reply rw.ResponseWriter.received c :: rs, ?_, ?_, ?_, ?_⟩
    · simp only [responseWriter.writeAll, hcall, hrun]
    · rw [hd2]
      show List.take maxBufferSize (body1.data ++ _) = _
      rw [hdata, List.flatMap_cons, ← List.append_assoc]
      rw [List.take_append_eq_append_take, List.take_take, Nat.min_self,
        @List.take_append_eq_append_take _ (rw.body.data ++ c.payload)]
      congr 2
      rw [List.length_take]
      omega
    · have hc : rw.ResponseWriter.call c =
          ({ rw.ResponseWriter with received := rw.ResponseWriter.received ++ [c] },
            rw.ResponseWriter.reply rw.ResponseWriter.received c) := by
        cases c <;> rfl
      simp only [Sink.writeAll, hc]
      rw [← hsink]
    · rw [hrecv]
      simp

/-! ## Lemmas on the logger fields -/

theorem lookup_filter_ne {β : Type} (k k1 : String) (d : List (String × β)) (h : k ≠ k1) :
    List.lookup k (d.filter (fun e => e.1 != k1)) = List.lookup k d := by
  induction d with
  | nil => rfl
  | cons e d ih =>
    obtain ⟨a, b⟩ := e
    by_cases ha : a = k1
    · subst ha
      have hk : (k == a) = false := by simpa using h
      simp [List.filter_cons, List.lookup_cons, hk, ih]
    · have hf : (a != k1) = true := by simpa using ha
      simp only [List.filter_cons, hf, if_true, List.lookup_cons, ih]

theorem Fields.get_set (d : Fields) (k k1 : String) (v : Int) :
    (Fields.set d k1 v).get k = if k = k1 then some v else d.get k := by
  unfold Fields.set Fields.get
  by_cases h : k = k1
  · subst h
    simp [List.lookup_cons]
  · have hk : (k == k1) = false := by simpa using h
    rw [if_neg h, List.lookup_cons, hk]
    exact lookup_filter_ne k k1 d h

theorem Fields.get_setIfPositive (d : Fields) (k k1 : String) (v : Int) :
    (Fields.setIfPositive d k1 v).get k = if k = k1 ∧ v > 0 then some v else d.get k := by
  unfold Fields.setIfPositive
  by_cases hv : v > 0
  · simp [hv, Fields.get_set]
  · simp [hv]

theorem int64.add_of_no_overflow (a b : Int) (h1 : int64.MinInt64 ≤ a + b)
    (h2 : a + b ≤ int64.MaxInt64) : int64.add a b = a + b := by
  unfold int64.add int64.wrap
  unfold int64.MinInt64 at h1
  unfold int64.MaxInt64 at h2
  omega

theorem normalizedUsage_total (u : Usage) :
    (normalizedUsage u).TotalTokens =
      if u.TotalTokens = 0 then int64.add u.InputTokens u.OutputTokens else u.TotalTokens := by
  unfold normalizedUsage
  split <;> rfl

/-- What the logger holds under any key after `updateUsageMetrics`. -/
theorem updateUsageMetrics_get (u : Usage) (log : Fields) (k : String) :
    (updateUsageMetrics u log).get k =
      if k = "t_websearch" ∧ (normalizedUsage u).WebSearchCount > 0 then
        some (normalizedUsage u).WebSearchCount
      else if k = "t_reason" ∧ (normalizedUsage u).ReasoningTokens > 0 then
        some (normalizedUsage u).ReasoningTokens
      else if k = "t_cache_creation" ∧ (normalizedUsage u).CacheCreationTokens > 0 then
        some (normalizedUsage u).CacheCreationTokens
      else if k = "t_cached" ∧ (normalizedUsage u).CachedTokens > 0 then
        some (normalizedUsage u).CachedTokens
      else if k = "t_total" then some (normalizedUsage u).TotalTokens
      else if k = "t_output" ∧ (normalizedUsage u).OutputTokens > 0 then
        some (normalizedUsage u).OutputTokens
      else if k = "t_image_input" ∧ (normalizedUsage u).ImageInputTokens > 0 then
        some (normalizedUsage u).ImageInputTokens
      else if k = "t_input" ∧ (normalizedUsage u).InputTokens > 0 then
        some (normalizedUsage u).InputTokens
      else log.get k := by
  simp only [updateUsageMetrics, Fields.get_setIfPositive, Fields.get_set]

/-! ## The capture layer is transparent to the response handler -/

/-- A handler run through the capturing writer, on a buffer within the ceiling,
panics only if the handler itself does, and otherwise leaves what the direct run
leaves, with the head of the written bytes in the buffer and the time of the
first call as first-byte timestamp. -/
theorem RespProg.run_spec (clock : Nat → Nat) (prog : RespProg) :
    ∀ (i : Nat) (rw : responseWriter) (m : Meta), rw.body.Len ≤ maxBufferSize →
      match prog.exec rw.ResponseWriter m with
      | none => prog.run clock i rw m = none
      | some o =>
        ∃ out : RunOut, prog.run clock i rw m = some out ∧
          out.rw.ResponseWriter = o.sink ∧ out.meta = o.meta ∧ out.usage = o.usage ∧
          out.err = o.err ∧
          out.rw.body.data =
            (rw.body.data ++ o.written.flatMap Chunk.payload).take maxBufferSize ∧
          out.rw.firstByteAt =
            (if o.written.isEmpty then rw.firstByteAt
             else if rw.firstByteAt.isNone then some (clock i) else rw.firstByteAt) := by
  induction prog with
  | ret usage err =>
    intro i rw m h
    have hb : rw.body.data.length ≤ maxBufferSize := h
    simp [RespProg.exec, RespProg.run, List.take_of_length_le hb]
  | panic =>
    intro i rw m h
    simp [RespProg.exec, RespProg.run]
  | write b k ih =>
    intro i rw m h
    obtain ⟨body1, hcall, hdata⟩ := responseWriter.call_spec rw (clock i) (Chunk.bytes b) h
    have hlen : (Buffer.Len body1) ≤ maxBufferSize := by
      show body1.data.length ≤ maxBufferSize
      rw [hdata, List.length_take]
      exact Nat.min_le_left _ _
    have hcall1 : rw.Write (clock i) b = _ := hcall
    have key := ih (rw.ResponseWriter.reply rw.ResponseWriter.received (Chunk.bytes b)) (i + 1)
      { ResponseWriter :=
          { rw.ResponseWriter with received := rw.ResponseWriter.received ++ [Chunk.bytes b] },
        body := body1,
        firstByteAt := if rw.firstByteAt.isNone then some (clock i) else rw.firstByteAt } m hlen
    simp only [RespProg.exec, RespProg.run, hcall1, Sink.Write]
    revert key
    cases hex : (k (rw.ResponseWriter.reply rw.ResponseWriter.received (Chunk.bytes b))).exec
        { rw.ResponseWriter with received := rw.ResponseWriter.received ++ [Chunk.bytes b] } m with
    | none => intro key; simpa using key
    | some o =>
      intro key
      obtain ⟨out, h1, h2, h3, h4, h5, h6, h7⟩ := key
      refine ⟨out, h1, h2, h3, h4, h5, ?_, ?_⟩
      · rw [h6]
        show List.take maxBufferSize (body1.data ++ _) = _
        rw [hdata, List.flatMap_cons, ← List.append_assoc]
        rw [List.take_append_eq_append_take, List.take_take, Nat.min_self,
          @List.take_append_eq_append_take _ (rw.body.data ++ (Chunk.bytes b).payload)]
        congr 2
        rw [List.length_take]
        omega
      · rw [h7]
        cases hf : rw.firstByteAt <;> simp
  | writeString s k ih =>
    intro i rw m h
    obtain ⟨body1, hcall, hdata⟩ := responseWriter.call_spec rw (clock i) (Chunk.str s) h
    have hlen : (Buffer.Len body1) ≤ maxBufferSize := by
      show body1.data.length ≤ maxBufferSize
      rw [hdata, List.length_take]
      exact Nat.min_le_left _ _
    have hcall1 : rw.WriteString (clock i) s = _ := hcall
    have key := ih (rw.ResponseWriter.reply rw.ResponseWriter.received (Chunk.str s)) (i + 1)
      { ResponseWriter :=
          { rw.ResponseWriter with received := rw.ResponseWriter.received ++ [Chunk.str s] },
        body := body1,
        firstByteAt := if rw.firstByteAt.isNone then some (clock i) else rw.firstByteAt } m hlen
    simp only [RespProg.exec, RespProg.run, hcall1, Sink.WriteString]
    revert key
    cases hex : (k (rw.ResponseWriter.reply rw.ResponseWriter.received (Chunk.str s))).exec
        { rw.ResponseWriter with received := rw.ResponseWriter.received ++ [Chunk.str s] } m with
    | none => intro key; simpa using key
    | some o =>
      intro key
      obtain ⟨out, h1, h2, h3, h4, h5, h6, h7⟩ := key
      refine ⟨out, h1, h2, h3, h4, h5, ?_, ?_⟩
      · rw [h6]
        show List.take maxBufferSize (body1.data ++ _) = _
        rw [hdata, List.flatMap_cons, ← List.append_assoc]
        rw [List.take_append_eq_append_take, List.take_take, Nat.min_self,
          @List.take_append_eq_append_take _ (rw.body.data ++ (Chunk.str s).payload)]
        congr 2
        rw [List.length_take]
        omega
      · rw [h7]
        cases hf : rw.firstByteAt <;> simp
  | setMeta m1 k ih =>
    intro i rw m h
    simpa [RespProg.exec, RespProg.run] using ih i rw m1 h

/-! ## Lemmas on the pool and on `handleResponse` -/

theorem getBuffer_spec (pool : List Buffer) (pick : Nat) (hpool : ∀ b ∈ pool, b.data = []) :
    (getBuffer pool pick).1.data = [] ∧ ∀ b ∈ (getBuffer pool pick).2, b.data = [] := by
  unfold getBuffer
  cases hget : pool.get? pick with
  | none => exact ⟨rfl, hpool⟩
  | some buf =>
    exact ⟨hpool buf (List.get?_mem hget), fun b hb => hpool b (List.mem_of_mem_eraseIdx hb)⟩

theorem putBuffer_spec (pool : List Buffer) (buf : Buffer) (hpool : ∀ b ∈ pool, b.data = []) :
    (putBuffer pool buf).1.data = [] ∧ ∀ b ∈ (putBuffer pool buf).2, b.data = [] := by
  unfold putBuffer
  by_cases hcap : buf.Reset.Cap > maxBufferSize
  · simp only [hcap, if_true]
    exact ⟨rfl, hpool⟩
  · simp only [hcap, if_false]
    refine ⟨rfl, ?_⟩
    intro b hb
    rcases List.mem_cons.1 hb with h | h
    · rw [h]; rfl
    · exact hpool b h

/-- The usage and error `handleResponse` returns for a handler result. -/
theorem handleResponse_spec (env : Env) (a : Adaptor) (c : Context) (m : Meta)
    (resp : Response) (detail : RequestDetail) (pool : List Buffer)
    (hpool : ∀ b ∈ pool, b.data = []) :
    match (a.DoResponse m c.Request resp).exec
        (gin.Header c.Writer "Content-Type" (resp.Header.Get "Content-Type")) m with
    | none => handleResponse env a c m resp detail pool = none
    | some o =>
      ∃ h : HandleOut, handleResponse env a c m resp detail pool = some h ∧
        h.usage = (match o.usage, o.err with
          | some usage, _ => usage
          | none, some _ => Usage.zero
          | none, none => o.meta.RequestUsage) ∧
        h.err = o.err ∧ h.meta = o.meta ∧ h.c = { c with Writer := o.sink } ∧
        h.installed = GinWriter.raw o.sink ∧
        h.detail.RequestBody = detail.RequestBody ∧
        h.detail.ResponseBody = (match o.err with
          | some relayErr => env.JSONOrEmpty relayErr
          | none => (o.written.flatMap Chunk.payload).take maxBufferSize) ∧
        h.detail.FirstByteAt = (if o.written.isEmpty then none else some (env.clock 0)) ∧
        h.released.data = [] ∧ (∀ b ∈ h.pool, b.data = []) := by
  obtain ⟨hbuf, hpool1⟩ := getBuffer_spec pool env.pick hpool
  have hlen : (getBuffer pool env.pick).1.Len ≤ maxBufferSize := by
    show (getBuffer pool env.pick).1.data.length ≤ maxBufferSize
    rw [hbuf]; exact Nat.zero_le _
  have key := RespProg.run_spec env.clock (a.DoResponse m c.Request resp) 0
    { ResponseWriter := gin.Header c.Writer "Content-Type" (resp.Header.Get "Content-Type"),
      body := (getBuffer pool env.pick).1, firstByteAt := none } m hlen
  revert key
  cases hex : (a.DoResponse m c.Request resp).exec
      (gin.Header c.Writer "Content-Type" (resp.Header.Get "Content-Type")) m with
  | none =>
    intro key
    simp only at key
    simp only [handleResponse, key]
  | some o =>
    intro key
    obtain ⟨out, h1, h2, h3, h4, h5, h6, h7⟩ := key
    obtain ⟨hp1, hp2⟩ := putBuffer_spec (getBuffer pool env.pick).2 out.rw.body hpool1
    simp only [handleResponse, h1]
    refine ⟨_, rfl, ?_, ?_, ?_, ?_, ?_, ?_, ?_, ?_, hp1, hp2⟩
    · simp only [h4, h5, h3]
      cases o.usage <;> cases o.err <;> rfl
    · simp only [h4, h5]
      cases o.usage <;> cases o.err <;> rfl
    · exact h3
    · simp only [h2]
    · simp only [h2]
    · simp only [h5]
      cases o.err <;> rfl
    · simp only [h5]
      cases o.err with
      | some e => rfl
      | none =>
        show out.rw.body.data = _
        rw [h6, hbuf]
        rfl
    · simp only [h5]
      cases o.err <;> simpa using h7

/-! ## Lemmas on `DoHelper` -/

/-- The inbound body cannot be read: `DoHelper` returns at stage 1. -/
theorem DoHelper_body_error (env : Env) (a : Adaptor) (c : Context) (m : Meta)
    (pool : List Buffer) (detail : RequestDetail) (err : ErrorWithStatusCode)
    (hbody : getRequestBody m c RequestDetail.empty = (detail, some err)) :
    DoHelper env a c m pool =
      some { usage := Usage.zero, detail := none, err := some err, meta := m, c := c,
             pool := pool, calls := [] } := by
  simp only [DoHelper, hbody]

/-- A stage of `prepareAndDoRequest` fails: `DoHelper` returns at stage 2. -/
theorem DoHelper_prepare_error (env : Env) (a : Adaptor) (c : Context) (m : Meta)
    (pool : List Buffer) (detail : RequestDetail) (err : ErrorWithStatusCode)
    (hbody : getRequestBody m c RequestDetail.empty = (detail, none))
    (herr : (prepareAndDoRequest env a c m).err = some err) :
    DoHelper env a c m pool =
      some { usage := Usage.zero, detail := some detail, err := some err,
             meta := (prepareAndDoRequest env a c m).meta, c := c, pool := pool,
             calls := (prepareAndDoRequest env a c m).calls } := by
  simp only [DoHelper, hbody, herr]

/-- No error and no response: `DoHelper` returns at stage 3. -/
theorem DoHelper_nil_response (env : Env) (a : Adaptor) (c : Context) (m : Meta)
    (pool : List Buffer) (detail : RequestDetail)
    (hbody : getRequestBody m c RequestDetail.empty = (detail, none))
    (herr : (prepareAndDoRequest env a c m).err = none)
    (hresp : (prepareAndDoRequest env a c m).resp = none) :
    DoHelper env a c m pool =
      some { usage := Usage.zero,
             detail := some { detail with
               ResponseBody := env.JSONOrEmpty (openai.ErrorWrapperWithMessage "response is nil"
                 openai.ErrorCodeBadResponse http.StatusInternalServerError) },
             err := some (openai.ErrorWrapperWithMessage "response is nil"
               openai.ErrorCodeBadResponse http.StatusInternalServerError),
             meta := (prepareAndDoRequest env a c m).meta, c := c, pool := pool,
             calls := (prepareAndDoRequest env a c m).calls } := by
  simp only [DoHelper, hbody, herr, hresp]

/-- The call reaches `handleResponse` and the response handler returns: what
`DoHelper` returns and leaves. -/
theorem DoHelper_handled (env : Env) (a : Adaptor) (c : Context) (m : Meta)
    (pool : List Buffer) (hpool : ∀ b ∈ pool, b.data = []) (detail : RequestDetail)
    (resp : Response) (o : ExecOut)
    (hbody : getRequestBody m c RequestDetail.empty = (detail, none))
    (herr : (prepareAndDoRequest env a c m).err = none)
    (hresp : (prepareAndDoRequest env a c m).resp = some resp)
    (hexec : (a.DoResponse (prepareAndDoRequest env a c m).meta c.Request resp).exec
      (gin.Header c.Writer "Content-Type" (resp.Header.Get "Content-Type"))
      (prepareAndDoRequest env a c m).meta = some o) :
    ∃ out : Outcome, DoHelper env a c m pool = some out ∧
      out.usage = (match o.err, o.usage with
        | some _, _ => Usage.zero
        | none, some usage => usage
        | none, none => o.meta.RequestUsage) ∧
      out.err = o.err ∧
      (∃ d : RequestDetail, out.detail = some d ∧ d.RequestBody = detail.RequestBody ∧
        d.ResponseBody = (match o.err with
          | some relayErr => env.JSONOrEmpty relayErr
          | none => (o.written.flatMap Chunk.payload).take maxBufferSize) ∧
        d.FirstByteAt = (if o.written.isEmpty then none else some (env.clock 0))) ∧
      out.meta = o.meta ∧
      out.calls = (prepareAndDoRequest env a c m).calls ++ [Call.DoResponse] ∧
      out.c.Writer = o.sink ∧
      out.c.logData = (match o.err with
        | some _ => c.logData
        | none => updateUsageMetrics out.usage c.logData) ∧
      (∀ b ∈ out.pool, b.data = []) := by
  have key := handleResponse_spec env a c (prepareAndDoRequest env a c m).meta resp detail pool
    hpool
  rw [hexec] at key
  obtain ⟨h, hh, h1, h2, h3, h4, h5, h6, h7, h8, h9, h10⟩ := key
  simp only [DoHelper, hbody, herr, hresp, hh]
  cases hoe : o.err with
  | some e =>
    have he : h.err = some e := by rw [h2, hoe]
    simp only [he]
    refine ⟨_, rfl, rfl, rfl, ⟨h.detail, rfl, h6, ?_, h8⟩, h3, rfl, ?_, ?_, h10⟩
    · rw [h7, hoe]
    · simp only [h4]
    · simp only [h4]
  | none =>
    have he : h.err = none := by rw [h2, hoe]
    simp only [he]
    refine ⟨_, rfl, ?_, rfl, ⟨h.detail, rfl, h6, ?_, h8⟩, h3, rfl, ?_, ?_, h10⟩
    · simp only [h1, hoe]
      cases o.usage <;> rfl
    · rw [h7, hoe]
    · simp only [h4]
    · simp only [h4]

/-- The call reaches `handleResponse` and the response handler panics. -/
theorem DoHelper_handler_panics (env : Env) (a : Adaptor) (c : Context) (m : Meta)
    (pool : List Buffer) (hpool : ∀ b ∈ pool, b.data = []) (detail : RequestDetail)
    (resp : Response)
    (hbody : getRequestBody m c RequestDetail.empty = (detail, none))
    (herr : (prepareAndDoRequest env a c m).err = none)
    (hresp : (prepareAndDoRequest env a c m).resp = some resp)
    (hexec : (a.DoResponse (prepareAndDoRequest env a c m).meta c.Request resp).exec
      (gin.Header c.Writer "Content-Type" (resp.Header.Get "Content-Type"))
      (prepareAndDoRequest env a c m).meta = none) :
    DoHelper env a c m pool = none := by
  have key := handleResponse_spec env a c (prepareAndDoRequest env a c m).meta resp detail pool
    hpool
  rw [hexec] at key
  simp only [DoHelper, hbody, herr, hresp, key]

/-- The request body `getRequestBody` records is empty or what the body reader
returned. -/
theorem getRequestBody_body (m : Meta) (c : Context) :
    (getRequestBody m c RequestDetail.empty).1.RequestBody = [] ∨
    c.Request.BodyRead = .ok (getRequestBody m c RequestDetail.empty).1.RequestBody := by
  unfold getRequestBody
  split
  · exact Or.inl rfl
  · split
    · exact Or.inl rfl
    · split
      · exact Or.inl rfl
      · rename_i b hb
        exact Or.inr hb

theorem getRequestBody_responseBody (m : Meta) (c : Context) :
    (getRequestBody m c RequestDetail.empty).1.ResponseBody = [] := by
  unfold getRequestBody
  split
  · rfl
  · split
    · rfl
    · split <;> rfl

/-- A fully successful call on a JSON request records the whole request body,
whatever its length. -/
theorem DoHelper_okAdaptor_json (body : List Byte) :
    ∃ (out : Outcome) (d : RequestDetail),
      DoHelper sampleEnv okAdaptor (jsonContext body) sampleMeta [] = some out ∧
      out.err = none ∧ out.detail = some d ∧ d.RequestBody = body := by
  have hbody : getRequestBody sampleMeta (jsonContext body) RequestDetail.empty =
      ({ RequestDetail.empty with RequestBody := body }, none) := by
    have hget : (jsonContext body).GetHeader "Content-Type" = "application/json" := by
      simp [jsonContext, Context.GetHeader, Header.Get, Header.lookup, List.lookup]
    have hct : strings.Contains ((jsonContext body).GetHeader "Content-Type") "/json" = true := by
      rw [hget]
      decide
    simp [getRequestBody, sampleMeta, hct]
    rfl
  obtain ⟨out, h1, -, h3, ⟨d, h4, h5, -⟩, -⟩ := DoHelper_handled sampleEnv okAdaptor
    (jsonContext body) sampleMeta [] (by simp) _ { StatusCode := 200, Header := [], Body := [] }
    { sink := { sampleSink with received := [Chunk.bytes [7, 8, 9]] }, meta := sampleMeta,
      usage := some sampleUsage, err := none, written := [Chunk.bytes [7, 8, 9]] }
    hbody rfl rfl rfl
  exact ⟨out, d, h1, h3, h4, h5⟩

/-! ## Lemmas on the registry and the extension store -/

theorem lookup_eq_none_of_not_key {β : Type} (k : String) (l : List (String × β))
    (h : ∀ e ∈ l, e.1 ≠ k) : List.lookup k l = none := by
  induction l with
  | nil => rfl
  | cons e l ih =>
    obtain ⟨a, b⟩ := e
    have ha : a ≠ k := h (a, b) (List.mem_cons_self _ _)
    have hk : (k == a) = false := by simpa using fun hka : k = a => ha hka.symm
    rw [List.lookup_cons, hk]
    exact ih fun e he => h e (List.mem_cons_of_mem _ he)

theorem lookup_of_mem_nodup {β : Type} (k : String) (v : β) (l : List (String × β))
    (hnd : (l.map Prod.fst).Nodup) (h : (k, v) ∈ l) : List.lookup k l = some v := by
  induction l with
  | nil => simp at h
  | cons e l ih =>
    obtain ⟨a, b⟩ := e
    rw [List.map_cons, List.nodup_cons] at hnd
    rcases List.mem_cons.1 h with heq | hmem
    · have h1 : k = a := congrArg Prod.fst heq
      have h2 : v = b := congrArg Prod.snd heq
      subst h1; subst h2
      simp [List.lookup_cons]
    · have hne : (k == a) = false := by
        have : a ≠ k := by
          intro hak
          apply hnd.1
          rw [hak]
          exact List.mem_map.2 ⟨(k, v), hmem, rfl⟩
        simpa using fun hka : k = a => this hka.symm
      rw [List.lookup_cons, hne]
      exact ih hnd.2 hmem

theorem Meta.get_set_ne (m : Meta) (k k1 : String) (v : Value) (h : k ≠ k1) :
    (m.Set k1 v).Get k = m.Get k := by
  have hb : (k == k1) = false := by simpa using h
  unfold Meta.Set Meta.Get
  simp only
  rw [List.lookup_cons, hb]
  exact lookup_filter_ne k k1 m.values h

theorem Meta.get_set_self (m : Meta) (key : String) (v : Value) :
    (m.Set key v).Get key = some v := by
  simp [Meta.Set, Meta.Get, List.lookup_cons]

/-! ## Lemmas on the order of the stages -/

/-- The stage methods `prepareAndDoRequest` invokes: all four in order when it
returns no error, an initial part of them otherwise. -/
theorem prepareAndDoRequest_stages (env : Env) (a : Adaptor) (c : Context) (m : Meta) :
    (stagesOf (prepareAndDoRequest env a c m).calls = [Call.ConvertRequest] ∧
        (prepareAndDoRequest env a c m).err ≠ none) ∨
    (stagesOf (prepareAndDoRequest env a c m).calls
        = [Call.ConvertRequest, Call.GetRequestURL] ∧
        (prepareAndDoRequest env a c m).err ≠ none) ∨
    (stagesOf (prepareAndDoRequest env a c m).calls
        = [Call.ConvertRequest, Call.GetRequestURL, Call.SetupRequestHeader] ∧
        (prepareAndDoRequest env a c m).err ≠ none) ∨
    stagesOf (prepareAndDoRequest env a c m).calls
        = [Call.ConvertRequest, Call.GetRequestURL, Call.SetupRequestHeader, Call.DoRequest] := by
  rcases hc : a.ConvertRequest m c.Request with ⟨m1, cr⟩
  cases hce : cr.err with
  | some e =>
    left
    simp [prepareAndDoRequest, hc, hce, stagesOf]
  | none =>
    right
    simp only [prepareAndDoRequest, hc, hce]
    cases hb : (m1.Channel.BaseURL == "") <;>
    · simp only [if_true, if_false, Bool.false_eq_true]
      generalize a.GetRequestURL _ = r
      obtain ⟨m3, url, ue⟩ := r
      cases ue with
      | some e =>
        left
        simp [stagesOf]
      | none =>
        simp only []
        generalize http.NewRequestWithContext env _ _ _ _ = nr
        cases nr with
        | error e =>
          left
          simp [stagesOf]
        | ok req =>
          right
          simp only []
          generalize setupRequestHeader a c m3 _ _ = sr
          obtain ⟨m4, req1, se⟩ := sr
          cases se with
          | some e =>
            left
            simp [stagesOf]
          | none =>
            right
            simp [stagesOf]

/-! ## Lemmas on the model list and on header maps -/

theorem foldl_append_singleton {α β : Type} (f : α → β) (l : List α) (init : List β) :
    l.foldl (fun acc e => acc ++ [f e]) init = init ++ l.map f := by
  induction l generalizing init with
  | nil => simp
  | cons e l ih => simp [List.foldl_cons, ih]

theorem aws.Adaptor.GetModelList_eq (reg : aws.Registry) :
    aws.Adaptor.GetModelList reg = reg.adaptors.map (fun e => e.2.config) := by
  unfold aws.Adaptor.GetModelList
  rw [foldl_append_singleton (fun e : String × aws.ModelAdaptor => e.2.config)]
  rfl

theorem Header.lookup_assign (h : Header) (k k1 : String) (v : List String) :
    (h.assign k1 v).lookup k = if k = k1 then some v else h.lookup k := by
  unfold Header.assign Header.lookup
  by_cases hk : k = k1
  · subst hk
    simp [List.lookup_cons]
  · have hb : (k == k1) = false := by simpa using hk
    rw [if_neg hk, List.lookup_cons, hb]
    exact lookup_filter_ne k k1 h hk

theorem lookup_isSome_of_mem_keys {β : Type} (k : String) (l : List (String × β))
    (h : k ∈ l.map Prod.fst) : ∃ v, List.lookup k l = some v := by
  induction l with
  | nil => simp at h
  | cons e l ih =>
    obtain ⟨a, b⟩ := e
    by_cases hk : k = a
    · subst hk
      exact ⟨b, by simp [List.lookup_cons]⟩
    · have hb : (k == a) = false := by simpa using hk
      rw [List.lookup_cons, hb]
      apply ih
      rcases List.mem_cons.1 h with h1 | h1
      · exact absurd h1 hk
      · exact h1

theorem mem_keys_of_lookup {β : Type} (k : String) (v : β) (l : List (String × β))
    (h : List.lookup k l = some v) : k ∈ l.map Prod.fst := by
  by_contra hn
  have hnone : List.lookup k l = none :=
    lookup_eq_none_of_not_key k l fun e he hek => hn (List.mem_map.2 ⟨e, he, hek⟩)
  rw [hnone] at h
  exact Option.noConfusion h

/-- Assigning, for each key of a list, the value `f key`: the map afterwards. -/
theorem lookup_foldl_assign (f : String → List String) (ks : List String) :
    ∀ (h : Header) (k : String),
      (ks.foldl (fun acc key => acc.assign key (f key)) h).lookup k
        = if k ∈ ks then some (f k) else h.lookup k := by
  induction ks with
  | nil => intro h k; simp
  | cons k1 ks ih =>
    intro h k
    rw [List.foldl_cons, ih, Header.lookup_assign]
    by_cases hk : k ∈ ks
    · simp [hk]
    · by_cases hk1 : k = k1
      · simp [hk1]
      · simp [hk, hk1]

/-- The map after the merge loop of `setupRequestHeader`. -/
theorem mergeHeader_lookup (h header : Header) (k : String) :
    (mergeHeader h (some header)).lookup k =
      match header.lookup k with
      | some vs => some vs
      | none => h.lookup k := by
  unfold mergeHeader
  rw [lookup_foldl_assign (fun key => (header.lookup key).getD [])]
  cases hl : header.lookup k with
  | some vs =>
    have hmem : k ∈ header.keys := mem_keys_of_lookup k vs header hl
    simp [hmem]
  | none =>
    have hmem : k ∉ header.keys := by
      intro hm
      obtain ⟨v, hv⟩ := lookup_isSome_of_mem_keys k header hm
      have hl1 : List.lookup k header = none := hl
      rw [hl1] at hv
      exact Option.noConfusion hv
    simp [hmem]

/-! ## Lemmas on the sink and the release of the buffer -/

/-- A handler leaves the wrapped writer as it was, with its calls appended. -/
theorem RespProg.exec_sink (prog : RespProg) :
    ∀ (w : Sink) (m : Meta) (o : ExecOut), prog.exec w m = some o →
      o.sink = { w with received := w.received ++ o.written } := by
  induction prog with
  | ret usage err =>
    intro w m o h
    simp only [RespProg.exec, Option.some.injEq] at h
    rw [← h]
    simp
  | panic =>
    intro w m o h
    simp [RespProg.exec] at h
  | write b k ih =>
    intro w m o h
    simp only [RespProg.exec] at h
    cases hex : (k (w.Write b).2).exec (w.Write b).1 m with
    | none => rw [hex] at h; simp at h
    | some o1 =>
      rw [hex] at h
      simp only [Option.some.injEq] at h
      have h1 := ih _ _ _ _ hex
      rw [← h]
      simp only [h1, Sink.Write, List.append_assoc, List.singleton_append]
  | writeString s k ih =>
    intro w m o h
    simp only [RespProg.exec] at h
    cases hex : (k (w.WriteString s).2).exec (w.WriteString s).1 m with
    | none => rw [hex] at h; simp at h
    | some o1 =>
      rw [hex] at h
      simp only [Option.some.injEq] at h
      have h1 := ih _ _ _ _ hex
      rw [← h]
      simp only [h1, Sink.WriteString, List.append_assoc, List.singleton_append]
  | setMeta m1 k ih =>
    intro w m o h
    simp only [RespProg.exec] at h
    exact ih _ _ _ h

/-- On return, `handleResponse` has handed the capture buffer, as the handler left
it, to `putBuffer`. -/
theorem handleResponse_release (env : Env) (a : Adaptor) (c : Context) (m : Meta)
    (resp : Response) (detail : RequestDetail) (pool : List Buffer)
    (hpool : ∀ b ∈ pool, b.data = []) (o : ExecOut)
    (hexec : (a.DoResponse m c.Request resp).exec
      (gin.Header c.Writer "Content-Type" (resp.Header.Get "Content-Type")) m = some o) :
    ∃ (h : HandleOut) (body : Buffer),
      handleResponse env a c m resp detail pool = some h ∧
      body.data = (o.written.flatMap Chunk.payload).take maxBufferSize ∧
      (h.released, h.pool) = putBuffer (getBuffer pool env.pick).2 body := by
  obtain ⟨hbuf, -⟩ := getBuffer_spec pool env.pick hpool
  have hlen : (getBuffer pool env.pick).1.Len ≤ maxBufferSize := by
    show (getBuffer pool env.pick).1.data.length ≤ maxBufferSize
    rw [hbuf]; exact Nat.zero_le _
  have key := RespProg.run_spec env.clock (a.DoResponse m c.Request resp) 0
    { ResponseWriter := gin.Header c.Writer "Content-Type" (resp.Header.Get "Content-Type"),
      body := (getBuffer pool env.pick).1, firstByteAt := none } m hlen
  rw [hexec] at key
  obtain ⟨out, h1, -, -, -, -, h6, -⟩ := key
  cases hh : handleResponse env a c m resp detail pool with
  | none => simp [handleResponse, h1] at hh
  | some h =>
    simp only [handleResponse, h1, Option.some.injEq] at hh
    refine ⟨h, out.rw.body, rfl, ?_, ?_⟩
    · rw [h6, hbuf]
      rfl
    · rw [← hh]

/-! ## Lemmas on the family adaptor in the pipeline -/

/-- With the family adaptor, `prepareAndDoRequest` never returns a response, never
invokes `DoResponse`, and fails only at conversion or at request construction. -/
theorem prepareAndDoRequest_awsFamily (env : Env) (reg : aws.Registry) (c : Context)
    (m : Meta) :
    (prepareAndDoRequest env (awsFamily reg) c m).resp = none ∧
    Call.DoResponse ∉ (prepareAndDoRequest env (awsFamily reg) c m).calls ∧
    ((prepareAndDoRequest env (awsFamily reg) c m).err = none ∨
      ∃ e : ErrorWithStatusCode,
        (prepareAndDoRequest env (awsFamily reg) c m).err = some e ∧ e.StatusCode = 400 ∧
        (e.Error.Code = "convert_request_failed" ∨ e.Error.Code = "new_request_failed")) := by
  simp only [prepareAndDoRequest, awsFamily]
  generalize aws.Adaptor.ConvertRequest reg m c.Request = co
  cases hce : co.result.err with
  | some e =>
    simp [openai.ErrorWrapperWithMessage, http.StatusBadRequest]
  | none =>
    simp only []
    cases hb : (co.meta.Channel.BaseURL == "") <;>
    · simp only [if_true, if_false, Bool.false_eq_true, aws.Adaptor.GetRequestURL,
        http.NewRequestWithContext]
      cases hn : env.NewRequestErr co.result.method "" with
      | some e =>
        simp [openai.ErrorWrapperWithMessage, http.StatusBadRequest]
      | none =>
        simp [setupRequestHeader, doRequest, aws.Adaptor.SetupRequestHeader,
          aws.Adaptor.DoRequest]

/-! ## Lemmas on recording adaptors -/

theorem Meta.trace_record (before after : Meta) (name : String) :
    (Meta.record before name after).trace = before.trace ++ [name] := by
  unfold Meta.record
  show (match (after.Set traceKey (Value.names (before.trace ++ [name]))).Get traceKey with
    | some (Value.names l) => l
    | _ => []) = _
  rw [Meta.get_set_self]

theorem Meta.trace_set (m : Meta) (t : List String) :
    (m.Set traceKey (Value.names t)).trace = t := by
  show (match (m.Set traceKey (Value.names t)).Get traceKey with
    | some (Value.names l) => l
    | _ => []) = _
  rw [Meta.get_set_self]

/-- A recording handler leaves the recorded names as they are. -/
theorem RespProg.run_recording (clock : Nat → Nat) (t : List String) (prog : RespProg) :
    ∀ (i : Nat) (rw : responseWriter) (m : Meta) (out : RunOut), m.trace = t →
      (prog.recording t).run clock i rw m = some out → out.meta.trace = t := by
  induction prog with
  | ret usage err =>
    intro i rw m out hm h
    simp only [RespProg.recording, RespProg.run, Option.some.injEq] at h
    rw [← h]
    exact hm
  | panic =>
    intro i rw m out hm h
    simp [RespProg.recording, RespProg.run] at h
  | write b k ih =>
    intro i rw m out hm h
    simp only [RespProg.recording, RespProg.run] at h
    cases hw : rw.Write (clock i) b with
    | none => rw [hw] at h; simp at h
    | some p =>
      obtain ⟨rw1, r⟩ := p
      rw [hw] at h
      exact ih r (i + 1) rw1 m out hm h
  | writeString s k ih =>
    intro i rw m out hm h
    simp only [RespProg.recording, RespProg.run] at h
    cases hw : rw.WriteString (clock i) s with
    | none => rw [hw] at h; simp at h
    | some p =>
      obtain ⟨rw1, r⟩ := p
      rw [hw] at h
      exact ih r (i + 1) rw1 m out hm h
  | setMeta m1 k ih =>
    intro i rw m out hm h
    simp only [RespProg.recording, RespProg.run] at h
    exact ih i rw _ out (Meta.trace_set m1 t) h

/-- What `handleResponse` leaves in the store of a recording adaptor: the names
recorded before, followed by `DoResponse`. -/
theorem handleResponse_recording (env : Env) (a : Adaptor) (c : Context) (m : Meta)
    (resp : Response) (detail : RequestDetail) (pool : List Buffer) (h : HandleOut)
    (hh : handleResponse env (recording a) c m resp detail pool = some h) :
    h.meta.trace = m.trace ++ ["DoResponse"] := by
  simp only [handleResponse, recording, RespProg.run] at hh
  cases hr : RespProg.run env.clock
      ((a.DoResponse m c.Request resp).recording (m.trace ++ ["DoResponse"])) 0
      ⟨gin.Header c.Writer "Content-Type" (resp.Header.Get "Content-Type"),
        (getBuffer pool env.pick).1, none⟩
      (m.Set traceKey (Value.names (m.trace ++ ["DoResponse"]))) with
  | none => rw [hr] at hh; simp at hh
  | some out =>
    rw [hr] at hh
    simp only [Option.some.injEq] at hh
    rw [← hh]
    exact RespProg.run_recording env.clock _ _ 0 _ _ out (Meta.trace_set m _) hr

theorem Meta.trace_channel (m : Meta) (ch : ChannelMeta) :
    ({ m with Channel := ch } : Meta).trace = m.trace := rfl

/-- With a recording adaptor, the names found in the store after
`prepareAndDoRequest` are those recorded before followed by the names of the stage
methods in the record of invocations: the record lists what really ran, in the
order in which it ran. -/
theorem prepareAndDoRequest_recording (env : Env) (a : Adaptor) (c : Context) (m : Meta) :
    (prepareAndDoRequest env (recording a) c m).meta.trace =
      m.trace ++ (stagesOf (prepareAndDoRequest env (recording a) c m).calls).map Call.name := by
  simp only [prepareAndDoRequest, recording]
  generalize a.ConvertRequest m c.Request = r1
  obtain ⟨m1, cr⟩ := r1
  cases hce : cr.err with
  | some e =>
    simp [stagesOf, Meta.trace_record, Call.name]
  | none =>
    simp only []
    cases hb : ((Meta.record m "ConvertRequest" m1).Channel.BaseURL == "") <;>
    · simp only [if_true, if_false, Bool.false_eq_true]
      generalize a.GetRequestURL _ = r2
      obtain ⟨m3, url, ue⟩ := r2
      cases ue with
      | some e =>
        simp [stagesOf, Meta.trace_record, Meta.trace_channel, Call.name]
      | none =>
        simp only []
        generalize http.NewRequestWithContext env _ _ _ _ = nr
        cases nr with
        | error e =>
          simp [stagesOf, Meta.trace_record, Meta.trace_channel, Call.name]
        | ok req =>
          simp only [setupRequestHeader]
          generalize a.SetupRequestHeader _ _ _ = r3
          obtain ⟨m4, req1, se⟩ := r3
          cases se with
          | some e =>
            simp [stagesOf, Meta.trace_record, Meta.trace_channel, Call.name]
          | none =>
            simp only [doRequest]
            generalize a.DoRequest _ _ _ = r4
            obtain ⟨m5, resp, de⟩ := r4
            cases de with
            | some e =>
              simp only []
              split_ifs <;>
                simp [stagesOf, Meta.trace_record, Meta.trace_channel, Call.name]
            | none =>
              simp [stagesOf, Meta.trace_record, Meta.trace_channel, Call.name]

/-- With a recording adaptor, the names found in the store when `DoHelper` returns
are those recorded before followed by the names of the stage methods in the record
of invocations of the outcome. -/
theorem DoHelper_recording (env : Env) (a : Adaptor) (c : Context) (m : Meta)
    (pool : List Buffer) (out : Outcome)
    (hout : DoHelper env (recording a) c m pool = some out) :
    out.meta.trace = m.trace ++ (stagesOf out.calls).map Call.name := by
  have hp := prepareAndDoRequest_recording env a c m
  rcases hgb : getRequestBody m c RequestDetail.empty with ⟨detail, _ | err⟩
  · cases hpe : (prepareAndDoRequest env (recording a) c m).err with
    | some e =>
      rw [DoHelper_prepare_error env (recording a) c m pool detail e hgb hpe] at hout
      simp only [Option.some.injEq] at hout
      rw [← hout]
      exact hp
    | none =>
      cases hpr : (prepareAndDoRequest env (recording a) c m).resp with
      | none =>
        rw [DoHelper_nil_response env (recording a) c m pool detail hgb hpe hpr] at hout
        simp only [Option.some.injEq] at hout
        rw [← hout]
        exact hp
      | some resp =>
        simp only [DoHelper, hgb, hpe, hpr] at hout
        cases hh : handleResponse env (recording a) c
            (prepareAndDoRequest env (recording a) c m).meta resp detail pool with
        | none => rw [hh] at hout; simp at hout
        | some h =>
          have ht := handleResponse_recording env a c _ resp detail pool h hh
          rw [hh] at hout
          simp only at hout
          have hfin : out.meta = h.meta ∧
              out.calls = (prepareAndDoRequest env (recording a) c m).calls
                ++ [Call.DoResponse] := by
            cases hhe : h.err with
            | some e =>
              rw [hhe] at hout
              simp only [Option.some.injEq] at hout
              rw [← hout]
              exact ⟨rfl, rfl⟩
            | none =>
              rw [hhe] at hout
              simp only [Option.some.injEq] at hout
              rw [← hout]
              exact ⟨rfl, rfl⟩
          rw [hfin.1, hfin.2, ht, hp]
          simp [stagesOf, List.filter_append, Call.name]
  · rw [DoHelper_body_error env (recording a) c m pool detail err hgb] at hout
    simp only [Option.some.injEq] at hout
    rw [← hout]
    simp [stagesOf]

/-! ## Claims -/

/-- C1: for every sequence of chunks written through `Write` and `WriteString`
into a capturing writer with an empty buffer, no slice bound is ever out of range
(the run does not panic), the buffer afterwards holds exactly the first
`min N 524288` bytes of the concatenation of the chunks, `N` being their total
length, and when `N > 524288` the captured length is exactly 524288. -/
theorem C1_capture_is_bounded_head (clock : Nat → Nat) (w : Sink) (cap : Nat)
    (cs : List Chunk) :
    maxBufferSize = 524288 ∧
    ∃ (rw : responseWriter) (rs : List WriteResult),
      responseWriter.writeAll clock 0 (responseWriter.fresh w (Buffer.New cap)) cs
        = some (rw, rs) ∧
      rw.body.String = (cs.flatMap Chunk.payload).take
        (min (cs.flatMap Chunk.payload).length maxBufferSize) ∧
      (maxBufferSize < (cs.flatMap Chunk.payload).length → rw.body.Len = maxBufferSize) := by
  refine ⟨by decide, ?_⟩
  obtain ⟨rw, rs, hrun, hdata, -, -⟩ := responseWriter.writeAll_spec clock cs 0
    (responseWriter.fresh w (Buffer.New cap)) (Nat.zero_le _)
  have hd : rw.body.data = (cs.flatMap Chunk.payload).take maxBufferSize := by
    simpa [responseWriter.fresh, Buffer.New] using hdata
  refine ⟨rw, rs, hrun, ?_, ?_⟩
  · show rw.body.data = _
    rw [hd]
    rcases Nat.le_total (cs.flatMap Chunk.payload).length maxBufferSize with hle | hle
    · rw [Nat.min_eq_left hle, List.take_length, List.take_of_length_le hle]
    · rw [Nat.min_eq_right hle]
  · intro hN
    show rw.body.data.length = _
    rw [hd, List.length_take]
    omega

/-- Witness of C1: one chunk of 524289 bytes is captured as exactly 524288 bytes. -/
theorem C1_capture_is_bounded_head_witness :
    ∃ (rw : responseWriter) (rs : List WriteResult),
      responseWriter.writeAll (fun i => i) 0
        (responseWriter.fresh sampleSink (Buffer.New maxBufferSize))
        [Chunk.bytes (List.replicate (maxBufferSize + 1) 0)] = some (rw, rs) ∧
      rw.body.Len = maxBufferSize := by
  obtain ⟨rw, rs, h1, -, h3⟩ := (C1_capture_is_bounded_head (fun i => i) sampleSink maxBufferSize
    [Chunk.bytes (List.replicate (maxBufferSize + 1) 0)]).2
  exact ⟨rw, rs, h1, h3 (by simp [Chunk.payload])⟩

/-- C2, as stated, fails: a JSON request whose body is 524289 bytes long goes
through a fully successful call and the returned detail record holds all 524289
bytes as request body. -/
theorem C2_request_body_exceeds_ceiling :
    ∃ (out : Outcome) (d : RequestDetail),
      DoHelper sampleEnv okAdaptor bigContext sampleMeta [] = some out ∧
      out.err = none ∧ out.detail = some d ∧
      d.RequestBody.length = 524289 ∧ maxBufferSize = 524288 := by
  obtain ⟨out, d, h1, h2, h3, h4⟩ := DoHelper_okAdaptor_json (List.replicate (maxBufferSize + 1) 0)
  refine ⟨out, d, h1, h2, h3, ?_, by decide⟩
  rw [h4, List.length_replicate]
  decide

/-- C2, amended: with every pooled buffer empty and a response handler that does
not panic, `DoHelper` returns, and the detail record it returns has, when the
error is nil, a response body of at most 524288 bytes; the request body is empty
or exactly what the body reader returned, and with a non-nil error the response
body is empty or the JSON form of that error (neither is cut to the ceiling). -/
theorem C2_success_response_body_bounded (env : Env) (a : Adaptor) (c : Context) (m : Meta)
    (pool : List Buffer) (hpool : ∀ b ∈ pool, b.data = [])
    (hnp : ∀ (m1 : Meta) (resp : Response) (w : Sink),
      (a.DoResponse m1 c.Request resp).exec w m1 ≠ none) :
    ∃ out : Outcome, DoHelper env a c m pool = some out ∧
      ∀ d : RequestDetail, out.detail = some d →
        (out.err = none → d.ResponseBody.length ≤ maxBufferSize) ∧
        (d.RequestBody = [] ∨ c.Request.BodyRead = .ok d.RequestBody) ∧
        (∀ e : ErrorWithStatusCode, out.err = some e →
          d.ResponseBody = [] ∨ d.ResponseBody = env.JSONOrEmpty e) := by
  have hreq := getRequestBody_body m c
  have hrsp := getRequestBody_responseBody m c
  rcases hgb : getRequestBody m c RequestDetail.empty with ⟨detail, _ | err⟩
  · -- body capture passed
    rw [hgb] at hreq hrsp
    simp only at hreq hrsp
    cases hpe : (prepareAndDoRequest env a c m).err with
    | some e =>
      refine ⟨_, DoHelper_prepare_error env a c m pool detail e hgb hpe, ?_⟩
      intro d hd
      simp only [Option.some.injEq] at hd
      subst hd
      exact ⟨fun h => by simp at h, hreq, fun _ _ => Or.inl hrsp⟩
    | none =>
      cases hpr : (prepareAndDoRequest env a c m).resp with
      | none =>
        refine ⟨_, DoHelper_nil_response env a c m pool detail hgb hpe hpr, ?_⟩
        intro d hd
        simp only [Option.some.injEq] at hd
        subst hd
        refine ⟨fun h => by simp at h, hreq, fun e he => Or.inr ?_⟩
        simp only [Option.some.injEq] at he
        subst he
        rfl
      | some resp =>
        cases hex : (a.DoResponse (prepareAndDoRequest env a c m).meta c.Request resp).exec
            (gin.Header c.Writer "Content-Type" (resp.Header.Get "Content-Type"))
            (prepareAndDoRequest env a c m).meta with
        | none => exact absurd hex (hnp _ _ _)
        | some o =>
          obtain ⟨out, h1, -, h3, ⟨d, h4, h5, h6, -⟩, -⟩ :=
            DoHelper_handled env a c m pool hpool detail resp o hgb hpe hpr hex
          refine ⟨out, h1, ?_⟩
          intro d1 hd1
          rw [h4] at hd1
          simp only [Option.some.injEq] at hd1
          subst hd1
          refine ⟨?_, ?_, ?_⟩
          · intro hnone
            rw [h3] at hnone
            rw [h6, hnone]
            simp only [List.length_take]
            exact Nat.min_le_left _ _
          · rw [h5]; exact hreq
          · intro e he
            rw [h3] at he
            rw [h6, he]
            exact Or.inr rfl
  · refine ⟨_, DoHelper_body_error env a c m pool detail err hgb, ?_⟩
    intro d hd
    simp at hd

/-- Witness of the amended C2: the handler writes 524289 bytes. -/
theorem C2_success_response_body_bounded_witness :
    ∃ out : Outcome, DoHelper sampleEnv floodAdaptor sampleContext sampleMeta [] = some out ∧
      ∀ d : RequestDetail, out.detail = some d →
        (out.err = none → d.ResponseBody.length ≤ maxBufferSize) ∧
        (d.RequestBody = [] ∨ sampleContext.Request.BodyRead = .ok d.RequestBody) ∧
        (∀ e : ErrorWithStatusCode, out.err = some e →
          d.ResponseBody = [] ∨ d.ResponseBody = sampleEnv.JSONOrEmpty e) :=
  C2_success_response_body_bounded sampleEnv floodAdaptor sampleContext sampleMeta []
    (by simp) (by intro m1 resp w; simp [floodAdaptor, RespProg.exec])

/-- C3: in every state of the capturing writer whose buffer is within the ceiling
(a full buffer included), one `Write` or `WriteString` call hands the whole chunk,
unchanged, to the wrapped writer exactly once and returns the wrapped writer's own
result; and over any sequence of calls on a fresh capturing writer the wrapped
writer sees exactly the calls made, with the same results as without the capture
layer, so the stream delivered to the client is the concatenation of the chunks. -/
theorem C3_wrapped_writer_sees_every_chunk :
    (∀ (rw : responseWriter) (now : Nat) (c : Chunk), rw.body.Len ≤ maxBufferSize →
      ∃ (rw1 : responseWriter) (r : WriteResult),
        rw.call now c = some (rw1, r) ∧
        (rw1.ResponseWriter, r) = rw.ResponseWriter.call c ∧
        rw1.ResponseWriter.received = rw.ResponseWriter.received ++ [c]) ∧
    (∀ (clock : Nat → Nat) (w : Sink) (cap : Nat) (cs : List Chunk),
      ∃ (rw1 : responseWriter) (rs : List WriteResult),
        responseWriter.writeAll clock 0 (responseWriter.fresh w (Buffer.New cap)) cs
          = some (rw1, rs) ∧
        (rw1.ResponseWriter, rs) = w.writeAll cs ∧
        rw1.ResponseWriter.received = w.received ++ cs ∧
        rw1.ResponseWriter.delivered = w.delivered ++ cs.flatMap Chunk.payload) := by
  constructor
  · intro rw now c h
    obtain ⟨body1, hcall, -⟩ := responseWriter.call_spec rw now c h
    refine ⟨_, _, hcall, ?_, rfl⟩
    cases c <;> rfl
  · intro clock w cap cs
    obtain ⟨rw1, rs, hrun, -, hsink, hrecv⟩ := responseWriter.writeAll_spec clock cs 0
      (responseWriter.fresh w (Buffer.New cap)) (Nat.zero_le _)
    refine ⟨rw1, rs, hrun, hsink, hrecv, ?_⟩
    have hr : rw1.ResponseWriter.received = w.received ++ cs := hrecv
    simp [Sink.delivered, hr]

/-- Witness of C3 on a writer whose buffer is exactly full. -/
theorem C3_wrapped_writer_sees_every_chunk_witness :
    fullWriter.body.Len ≤ maxBufferSize ∧
    ∃ (rw1 : responseWriter) (r : WriteResult),
      fullWriter.call 5 (Chunk.bytes [1, 2, 3]) = some (rw1, r) ∧
      (rw1.ResponseWriter, r) = fullWriter.ResponseWriter.call (Chunk.bytes [1, 2, 3]) ∧
      rw1.ResponseWriter.received = fullWriter.ResponseWriter.received ++ [Chunk.bytes [1, 2, 3]] :=
  ⟨by simp [fullWriter, Buffer.Len],
   C3_wrapped_writer_sees_every_chunk.1 fullWriter 5 (Chunk.bytes [1, 2, 3])
    (by simp [fullWriter, Buffer.Len])⟩

/-- C4: when `Adaptor.DoRequest` returns a non-nil error, `doRequest` returns a nil
response and an error classified by the first matching cause, in the order
canceled (400, request_canceled), deadline exceeded (504, request_timeout),
EOF (503, request_failed), unexpected EOF (500, request_failed), anything else
(400, request_failed); when it returns no error, `doRequest` returns its response
unchanged with a nil error. -/
theorem C4_doRequest_classifies_by_first_cause (a : Adaptor) (c : Context) (m : Meta)
    (req : OutRequest) :
    (∀ (m1 : Meta) (resp : Option Response) (err : GoError),
      a.DoRequest m c.Request req = (m1, resp, some err) →
      ∃ e : ErrorWithStatusCode, doRequest a c m req = (m1, none, some e) ∧
        (errors.Is err Sentinel.Canceled = true →
          e.StatusCode = 400 ∧ e.Error.Code = "request_canceled") ∧
        (errors.Is err Sentinel.Canceled = false →
          errors.Is err Sentinel.DeadlineExceeded = true →
          e.StatusCode = 504 ∧ e.Error.Code = "request_timeout") ∧
        (errors.Is err Sentinel.Canceled = false →
          errors.Is err Sentinel.DeadlineExceeded = false →
          errors.Is err Sentinel.EOF = true →
          e.StatusCode = 503 ∧ e.Error.Code = "request_failed") ∧
        (errors.Is err Sentinel.Canceled = false →
          errors.Is err Sentinel.DeadlineExceeded = false →
          errors.Is err Sentinel.EOF = false →
          errors.Is err Sentinel.ErrUnexpectedEOF = true →
          e.StatusCode = 500 ∧ e.Error.Code = "request_failed") ∧
        (errors.Is err Sentinel.Canceled = false →
          errors.Is err Sentinel.DeadlineExceeded = false →
          errors.Is err Sentinel.EOF = false →
          errors.Is err Sentinel.ErrUnexpectedEOF = false →
          e.StatusCode = 400 ∧ e.Error.Code = "request_failed")) ∧
    (∀ (m1 : Meta) (resp : Option Response),
      a.DoRequest m c.Request req = (m1, resp, none) →
      doRequest a c m req = (m1, resp, none)) := by
  constructor
  · intro m1 resp err h
    simp only [doRequest, h]
    cases h1 : errors.Is err Sentinel.Canceled <;>
    cases h2 : errors.Is err Sentinel.DeadlineExceeded <;>
    cases h3 : errors.Is err Sentinel.EOF <;>
    cases h4 : errors.Is err Sentinel.ErrUnexpectedEOF <;>
    simp [openai.ErrorWrapperWithMessage, http.StatusBadRequest, http.StatusGatewayTimeout,
      http.StatusServiceUnavailable, http.StatusInternalServerError]
  · intro m1 resp h
    simp only [doRequest, h]

/-- Witness of C4: a transport error wrapping a deadline-exceeded condition is
reported with status 504 and code request_timeout. -/
theorem C4_doRequest_classifies_by_first_cause_witness :
    ∃ e : ErrorWithStatusCode,
      doRequest timeoutAdaptor sampleContext sampleMeta sampleOutRequest
        = (sampleMeta, none, some e) ∧
      e.StatusCode = 504 ∧ e.Error.Code = "request_timeout" := by
  obtain ⟨e, he, -, h2, -⟩ :=
    (C4_doRequest_classifies_by_first_cause timeoutAdaptor sampleContext sampleMeta
      sampleOutRequest).1 sampleMeta none _ rfl
  exact ⟨e, he, h2 rfl rfl⟩

/-- C5: the total that `updateUsageMetrics` emits as `t_total` is the usage total
when that is non-zero and the Go sum of input and output when it is zero: their
sum as 64-bit signed integers, which is input plus output whenever that fits and
wraps otherwise (MaxInt64 plus 1 gives MinInt64); with total 0, input 3, output 5
it is 8, and with total 10, input 3, output 5 it stays 10. -/
theorem C5_emitted_total_is_normalised (u : Usage) (log : Fields) :
    (u.TotalTokens ≠ 0 → (updateUsageMetrics u log).get "t_total" = some u.TotalTokens) ∧
    (u.TotalTokens = 0 →
      (updateUsageMetrics u log).get "t_total"
        = some (int64.add u.InputTokens u.OutputTokens)) ∧
    (u.TotalTokens = 0 → int64.MinInt64 ≤ u.InputTokens + u.OutputTokens →
      u.InputTokens + u.OutputTokens ≤ int64.MaxInt64 →
      (updateUsageMetrics u log).get "t_total" = some (u.InputTokens + u.OutputTokens)) ∧
    (updateUsageMetrics { Usage.zero with InputTokens := 3, OutputTokens := 5 } log).get "t_total"
      = some 8 ∧
    (updateUsageMetrics { Usage.zero with InputTokens := 3, OutputTokens := 5, TotalTokens := 10 }
      log).get "t_total" = some 10 ∧
    (updateUsageMetrics { Usage.zero with InputTokens := int64.MaxInt64, OutputTokens := 1 }
      log).get "t_total" = some int64.MinInt64 := by
  have hget : ∀ v : Usage, (updateUsageMetrics v log).get "t_total" =
      some (if v.TotalTokens = 0 then int64.add v.InputTokens v.OutputTokens
            else v.TotalTokens) := by
    intro v
    rw [updateUsageMetrics_get, ← normalizedUsage_total]
    simp
  refine ⟨?_, ?_, ?_, ?_, ?_, ?_⟩
  · intro h
    rw [hget, if_neg h]
  · intro h
    rw [hget, if_pos h]
  · intro h h1 h2
    rw [hget, if_pos h, int64.add_of_no_overflow _ _ h1 h2]
  · rw [hget]
    decide
  · rw [hget]
    decide
  · rw [hget]
    decide

/-- Witness of C5 at total 0, input 3, output 5. -/
theorem C5_emitted_total_is_normalised_witness :
    (updateUsageMetrics { Usage.zero with InputTokens := 3, OutputTokens := 5 } []).get "t_total"
      = some ((3 : Int) + 5) :=
  (C5_emitted_total_is_normalised { Usage.zero with InputTokens := 3, OutputTokens := 5 } []).2.2.1
    rfl (by decide) (by decide)

/-- C6, as stated, fails: for the all-zero usage the normalised total is zero and
`t_total` is attached all the same, with value 0. -/
theorem C6_zero_total_is_attached :
    Usage.zero.nonneg ∧ (normalizedUsage Usage.zero).TotalTokens = 0 ∧
    (updateUsageMetrics Usage.zero []).get "t_total" = some 0 := by
  refine ⟨by simp [Usage.nonneg, Usage.zero], by decide, ?_⟩
  rw [updateUsageMetrics_get]
  have ht : (normalizedUsage Usage.zero).TotalTokens = 0 := by decide
  simp [ht]

/-- C6, amended: for a usage with non-negative fields and an empty log context,
after `updateUsageMetrics` each of the seven fields other than `t_total` is
attached exactly when its value is non-zero, `t_total` is always attached (also
when zero), every attached field carries its post-normalisation value (for
`t_total` with a zero total, the 64-bit Go sum of input and output), and no other
key is attached. -/
theorem C6_fields_attached (u : Usage) (h : u.nonneg) :
    let log := updateUsageMetrics u []
    log.get "t_input" = (if u.InputTokens ≠ 0 then some u.InputTokens else none) ∧
    log.get "t_image_input" = (if u.ImageInputTokens ≠ 0 then some u.ImageInputTokens else none) ∧
    log.get "t_output" = (if u.OutputTokens ≠ 0 then some u.OutputTokens else none) ∧
    log.get "t_total" =
      some (if u.TotalTokens = 0 then int64.add u.InputTokens u.OutputTokens
            else u.TotalTokens) ∧
    log.get "t_cached" = (if u.CachedTokens ≠ 0 then some u.CachedTokens else none) ∧
    log.get "t_cache_creation" =
      (if u.CacheCreationTokens ≠ 0 then some u.CacheCreationTokens else none) ∧
    log.get "t_reason" = (if u.ReasoningTokens ≠ 0 then some u.ReasoningTokens else none) ∧
    log.get "t_websearch" = (if u.WebSearchCount ≠ 0 then some u.WebSearchCount else none) ∧
    (∀ k : String, k ∉ ["t_input", "t_image_input", "t_output", "t_total", "t_cached",
        "t_cache_creation", "t_reason", "t_websearch"] → log.get k = none) := by
  obtain ⟨h1, h2, h3, h4, h5, h6, h7, h8⟩ := h
  have hn : ∀ x : Int, 0 ≤ x → (x > 0 ↔ x ≠ 0) := fun x hx => by omega
  have e1 : (normalizedUsage u).InputTokens = u.InputTokens := by
    unfold normalizedUsage; split <;> rfl
  have e2 : (normalizedUsage u).ImageInputTokens = u.ImageInputTokens := by
    unfold normalizedUsage; split <;> rfl
  have e3 : (normalizedUsage u).OutputTokens = u.OutputTokens := by
    unfold normalizedUsage; split <;> rfl
  have e4 : (normalizedUsage u).CachedTokens = u.CachedTokens := by
    unfold normalizedUsage; split <;> rfl
  have e5 : (normalizedUsage u).CacheCreationTokens = u.CacheCreationTokens := by
    unfold normalizedUsage; split <;> rfl
  have e6 : (normalizedUsage u).ReasoningTokens = u.ReasoningTokens := by
    unfold normalizedUsage; split <;> rfl
  have e7 : (normalizedUsage u).TotalTokens =
      if u.TotalTokens = 0 then int64.add u.InputTokens u.OutputTokens
      else u.TotalTokens := normalizedUsage_total u
  have e8 : (normalizedUsage u).WebSearchCount = u.WebSearchCount := by
    unfold normalizedUsage; split <;> rfl
  simp only [updateUsageMetrics_get, e1, e2, e3, e4, e5, e6, e7, e8]
  refine ⟨?_, ?_, ?_, ?_, ?_, ?_, ?_, ?_, ?_⟩
  · simp [hn _ h1, Fields.get]
  · simp [hn _ h2, Fields.get]
  · simp [hn _ h3, Fields.get]
  · simp
  · simp [hn _ h4, Fields.get]
  · simp [hn _ h5, Fields.get]
  · simp [hn _ h6, Fields.get]
  · simp [hn _ h8, Fields.get]
  · intro k hk
    simp only [List.mem_cons, List.mem_singleton, List.not_mem_nil, or_false, not_or] at hk
    obtain ⟨k1, k2, k3, k4, k5, k6, k7, k8⟩ := hk
    simp [k1, k2, k3, k4, k5, k6, k7, k8, Fields.get]

/-- Witness of the amended C6 at input 3, output 5, everything else zero. -/
theorem C6_fields_attached_witness :
    (updateUsageMetrics { Usage.zero with InputTokens := 3, OutputTokens := 5 } []).get "t_cached"
      = none ∧
    (updateUsageMetrics { Usage.zero with InputTokens := 3, OutputTokens := 5 } []).get "t_input"
      = some 3 := by
  have h := C6_fields_attached { Usage.zero with InputTokens := 3, OutputTokens := 5 }
    (by simp [Usage.nonneg, Usage.zero])
  simp only at h
  obtain ⟨h1, -, -, -, h5, -⟩ := h
  refine ⟨?_, ?_⟩
  · rw [h5]; simp [Usage.zero]
  · rw [h1]; simp [Usage.zero]

/-- C7: when the actual model of the Meta is not a key of the registry, the
family `ConvertRequest` returns the error "adaptor not found" with empty method,
nil headers and nil body, invokes no concrete adaptor and leaves the Meta as it
was; through `prepareAndDoRequest` and, once body capture has passed, through
`DoHelper` this is a status-400 error with code "convert_request_failed" and
message "convert request failed: adaptor not found", with no further adaptor
method invoked. -/
theorem C7_unregistered_model_not_found (reg : aws.Registry) (m : Meta)
    (hkey : ∀ e ∈ reg.adaptors, e.1 ≠ m.ActualModel) :
    (∀ req : Request,
      aws.Adaptor.ConvertRequest reg m req =
        { meta := m,
          result := { method := "", header := none, body := none,
                      err := some (errors.New "adaptor not found") },
          invoked := [] }) ∧
    (∀ (env : Env) (c : Context),
      (prepareAndDoRequest env (awsFamily reg) c m).resp = none ∧
      (prepareAndDoRequest env (awsFamily reg) c m).err =
        some { StatusCode := 400,
               Error := { Message := "convert request failed: adaptor not found",
                          Code := "convert_request_failed" } } ∧
      (prepareAndDoRequest env (awsFamily reg) c m).meta = m ∧
      (prepareAndDoRequest env (awsFamily reg) c m).calls = [Call.ConvertRequest]) ∧
    (∀ (env : Env) (c : Context) (pool : List Buffer) (detail : RequestDetail),
      getRequestBody m c RequestDetail.empty = (detail, none) →
      DoHelper env (awsFamily reg) c m pool =
        some { usage := Usage.zero, detail := some detail,
               err := some { StatusCode := 400,
                             Error := { Message := "convert request failed: adaptor not found",
                                        Code := "convert_request_failed" } },
               meta := m, c := c, pool := pool, calls := [Call.ConvertRequest] }) := by
  have hget : aws.GetAdaptor reg m.ActualModel = none := by
    unfold aws.GetAdaptor
    rw [lookup_eq_none_of_not_key _ _ hkey]
    rfl
  have hconv : ∀ req : Request,
      aws.Adaptor.ConvertRequest reg m req =
        { meta := m,
          result := { method := "", header := none, body := none,
                      err := some (errors.New "adaptor not found") },
          invoked := [] } := by
    intro req
    simp only [aws.Adaptor.ConvertRequest, hget]
  have hprep : ∀ (env : Env) (c : Context),
      prepareAndDoRequest env (awsFamily reg) c m =
        { meta := m, calls := [Call.ConvertRequest], resp := none,
          err := some { StatusCode := 400,
                        Error := { Message := "convert request failed: adaptor not found",
                                   Code := "convert_request_failed" } } } := by
    intro env c
    simp only [prepareAndDoRequest, awsFamily, hconv]
    rfl
  refine ⟨hconv, ?_, ?_⟩
  · intro env c
    rw [hprep]
    exact ⟨rfl, rfl, rfl, rfl⟩
  · intro env c pool detail hbody
    have h := DoHelper_prepare_error env (awsFamily reg) c m pool detail _ hbody
      (by rw [hprep])
    rw [h, hprep]

/-- Witness of C7: registry with the models a and b, requested model c. -/
theorem C7_unregistered_model_not_found_witness :
    (∀ e ∈ sampleRegistry.adaptors, e.1 ≠ sampleMeta.ActualModel) ∧
    aws.Adaptor.ConvertRequest sampleRegistry sampleMeta sampleRequest =
      { meta := sampleMeta,
        result := { method := "", header := none, body := none,
                    err := some (errors.New "adaptor not found") },
        invoked := [] } :=
  ⟨by decide,
   (C7_unregistered_model_not_found sampleRegistry sampleMeta (by decide)).1 sampleRequest⟩

/-- C8: when the actual model of the Meta is registered, the family
`ConvertRequest` stores the concrete adaptor of the registry under `awsAdapter`
and then invokes exactly that adaptor on the Meta so updated; whatever that call
returns, with a concrete adaptor that leaves the entry of the router alone the
store afterwards holds exactly that adaptor under `awsAdapter`, and a subsequent
family `DoResponse` on the same Meta delegates to the same concrete adaptor. For
every Meta, the family `DoResponse` itself returns the nil usage with the
status-500 error "awsAdapter not found" (whatever the concrete adaptors are) if
and only if the key is absent; with an adaptor under the key it returns what that
adaptor returns. -/
theorem C8_entry_stored_and_read_back (reg : aws.Registry) (m : Meta) (ma : aws.ModelAdaptor)
    (hreg : (m.ActualModel, ma) ∈ reg.adaptors)
    (hframe : ∀ (m0 : Meta) (r : Request),
      ((reg.impls ma.adaptor).ConvertRequest m0 r).1.Get "awsAdapter" = m0.Get "awsAdapter") :
    (∀ req : Request,
      (aws.Adaptor.ConvertRequest reg m req).invoked = [ma.adaptor] ∧
      ((aws.Adaptor.ConvertRequest reg m req).meta, (aws.Adaptor.ConvertRequest reg m req).result)
        = (reg.impls ma.adaptor).ConvertRequest
            (m.Set "awsAdapter" (Value.awsAdapter ma.adaptor)) req ∧
      (aws.Adaptor.ConvertRequest reg m req).meta.Get "awsAdapter"
        = some (Value.awsAdapter ma.adaptor) ∧
      ∀ (req2 : Request) (resp : Response),
        aws.Adaptor.DoResponse reg (aws.Adaptor.ConvertRequest reg m req).meta req2 resp
          = (reg.impls ma.adaptor).DoResponse (aws.Adaptor.ConvertRequest reg m req).meta req2) ∧
    (∀ (m1 : Meta) (req : Request) (resp : Response),
      (∀ impls : Nat → aws.AwsAdapter,
        aws.Adaptor.DoResponse { reg with impls := impls } m1 req resp =
          RespProg.ret none (some { StatusCode := 500,
                                    Error := { Message := "awsAdapter not found", Code := "" } }))
        ↔ m1.Get "awsAdapter" = none) ∧
    (∀ (m1 : Meta) (req : Request) (resp : Response), m1.Get "awsAdapter" = none →
      aws.Adaptor.DoResponse reg m1 req resp =
        RespProg.ret none (some { StatusCode := 500,
                                  Error := { Message := "awsAdapter not found", Code := "" } })) ∧
    (∀ (m1 : Meta) (req : Request) (resp : Response) (ref : Nat),
      m1.Get "awsAdapter" = some (Value.awsAdapter ref) →
      aws.Adaptor.DoResponse reg m1 req resp = (reg.impls ref).DoResponse m1 req) := by
  have hget : aws.GetAdaptor reg m.ActualModel = some ma.adaptor := by
    unfold aws.GetAdaptor
    rw [lookup_of_mem_nodup _ _ _ reg.nodup hreg]
    rfl
  have hdeleg : ∀ (m1 : Meta) (req : Request) (resp : Response) (ref : Nat),
      m1.Get "awsAdapter" = some (Value.awsAdapter ref) →
      aws.Adaptor.DoResponse reg m1 req resp = (reg.impls ref).DoResponse m1 req := by
    intro m1 req resp ref h
    simp only [aws.Adaptor.DoResponse, h]
  have habsent : ∀ (r : aws.Registry) (m1 : Meta) (req : Request) (resp : Response),
      m1.Get "awsAdapter" = none →
      aws.Adaptor.DoResponse r m1 req resp =
        RespProg.ret none (some { StatusCode := 500,
                                  Error := { Message := "awsAdapter not found", Code := "" } }) := by
    intro r m1 req resp h
    simp only [aws.Adaptor.DoResponse, h, http.StatusInternalServerError]
  refine ⟨?_, ?_, habsent reg, hdeleg⟩
  · intro req
    have hmeta : (aws.Adaptor.ConvertRequest reg m req).meta =
        ((reg.impls ma.adaptor).ConvertRequest
          (m.Set "awsAdapter" (Value.awsAdapter ma.adaptor)) req).1 := by
      simp only [aws.Adaptor.ConvertRequest, hget]
    have hkept : (aws.Adaptor.ConvertRequest reg m req).meta.Get "awsAdapter"
        = some (Value.awsAdapter ma.adaptor) := by
      rw [hmeta, hframe, Meta.get_set_self]
    refine ⟨?_, ?_, hkept, fun req2 resp => hdeleg _ req2 resp _ hkept⟩
    · simp only [aws.Adaptor.ConvertRequest, hget]
    · simp only [aws.Adaptor.ConvertRequest, hget]
  · intro m1 req resp
    constructor
    · intro hall
      have h := hall (fun _ =>
        { ConvertRequest := fun m0 _ =>
            (m0, { method := "", header := none, body := none, err := none })
          DoResponse := fun _ _ => RespProg.panic })
      cases hg : m1.Get "awsAdapter" with
      | none => rfl
      | some v =>
        cases v with
        | awsAdapter ref =>
          simp only [aws.Adaptor.DoResponse, hg] at h
          exact RespProg.noConfusion h
        | names l =>
          simp only [aws.Adaptor.DoResponse, hg] at h
          exact RespProg.noConfusion h
        | other tag =>
          simp only [aws.Adaptor.DoResponse, hg] at h
          exact RespProg.noConfusion h
    · intro habs impls
      exact habsent _ m1 req resp habs

/-- Witness of C8: the model `b` is registered with the concrete adaptor of
reference 1, which writes the store under a key of its own and leaves the entry
of the router alone. -/
theorem C8_entry_stored_and_read_back_witness :
    (aws.Adaptor.ConvertRequest sampleRegistry { sampleMeta with ActualModel := "b" }
        sampleRequest).meta.Get "awsAdapter" = some (Value.awsAdapter 1) ∧
    ∀ (req2 : Request) (resp : Response),
      aws.Adaptor.DoResponse sampleRegistry
          (aws.Adaptor.ConvertRequest sampleRegistry { sampleMeta with ActualModel := "b" }
            sampleRequest).meta req2 resp
        = (sampleRegistry.impls 1).DoResponse
            (aws.Adaptor.ConvertRequest sampleRegistry { sampleMeta with ActualModel := "b" }
              sampleRequest).meta req2 :=
  ((C8_entry_stored_and_read_back sampleRegistry { sampleMeta with ActualModel := "b" }
      { config := { Model := "b", Timeout := 0 }, adaptor := 1 } (by decide)
      (fun m0 _ => Meta.get_set_ne m0 "awsAdapter" "convertedRequest" (Value.other 7)
        (by decide))).1 sampleRequest).2.2

/-- C9: when body capture, `ConvertRequest`, `GetRequestURL`, request construction
and `SetupRequestHeader` all succeed and `DoRequest` returns a nil response with a
nil error, `DoHelper` returns the zero usage, a detail record whose response body
is the JSON form of the returned error, and an error of status 500 with message
"response is nil" and the bad-response code; `DoResponse` is not invoked. -/
theorem C9_nil_response_is_reported (env : Env) (a : Adaptor) (c : Context) (m : Meta)
    (pool : List Buffer) (detail : RequestDetail) (m1 m3 m4 m5 : Meta) (cr : ConvertResult)
    (url : String) (req req1 : OutRequest)
    (hbody : getRequestBody m c RequestDetail.empty = (detail, none))
    (hconv : a.ConvertRequest m c.Request = (m1, cr)) (hcerr : cr.err = none)
    (hurl : a.GetRequestURL
      (if m1.Channel.BaseURL == "" then { m1 with Channel := { BaseURL := a.GetBaseURL } }
       else m1) = (m3, url, none))
    (hnew : http.NewRequestWithContext env
      (if m3.ModelConfig.Timeout > 0 then some m3.ModelConfig.Timeout else none)
      cr.method url cr.body = .ok req)
    (hsetup : a.SetupRequestHeader m3 c.Request
      { req with Header := assembledHeader req cr.header } = (m4, req1, none))
    (hdo : a.DoRequest m4 c.Request req1 = (m5, none, none)) :
    ∃ (out : Outcome) (e : ErrorWithStatusCode),
      DoHelper env a c m pool = some out ∧
      out.usage = Usage.zero ∧
      out.detail = some { detail with ResponseBody := env.JSONOrEmpty e } ∧
      out.err = some e ∧
      e.StatusCode = 500 ∧ e.Error.Message = "response is nil" ∧
      e.Error.Code = openai.ErrorCodeBadResponse ∧
      Call.DoResponse ∉ out.calls := by
  have hp : (prepareAndDoRequest env a c m).err = none ∧
      (prepareAndDoRequest env a c m).resp = none ∧
      Call.DoResponse ∉ (prepareAndDoRequest env a c m).calls := by
    simp only [prepareAndDoRequest, hconv, hcerr]
    cases hb : (m1.Channel.BaseURL == "") with
    | true =>
      rw [hb, if_pos rfl] at hurl
      simp [hurl, hnew, setupRequestHeader, hsetup, doRequest, hdo]
    | false =>
      rw [hb, if_neg Bool.false_ne_true] at hurl
      simp [hurl, hnew, setupRequestHeader, hsetup, doRequest, hdo]
  obtain ⟨h1, h2, h3⟩ := hp
  exact ⟨_, _, DoHelper_nil_response env a c m pool detail hbody h1 h2, rfl, rfl, rfl, rfl, rfl,
    rfl, h3⟩

/-- Witness of C9 on an adaptor whose `DoRequest` returns `(nil, nil)`. -/
theorem C9_nil_response_is_reported_witness :
    ∃ (out : Outcome) (e : ErrorWithStatusCode),
      DoHelper sampleEnv nilResponseAdaptor sampleContext sampleMeta [] = some out ∧
      out.usage = Usage.zero ∧
      out.detail = some { RequestBody := [1, 2, 3], ResponseBody := sampleEnv.JSONOrEmpty e,
                          FirstByteAt := none } ∧
      out.err = some e ∧
      e.StatusCode = 500 ∧ e.Error.Message = "response is nil" ∧
      e.Error.Code = openai.ErrorCodeBadResponse ∧
      Call.DoResponse ∉ out.calls :=
  C9_nil_response_is_reported sampleEnv nilResponseAdaptor sampleContext sampleMeta []
    { RequestBody := [1, 2, 3], ResponseBody := [], FirstByteAt := none }
    sampleMeta sampleMeta sampleMeta sampleMeta
    { method := "POST", header := none, body := none, err := none } "https://backend/v1"
    { Method := "POST", URL := "https://backend/v1", Header := [], Body := none, Timeout := none }
    { Method := "POST", URL := "https://backend/v1",
      Header := [("Content-Type", ["application/json; charset=utf-8"])], Body := none,
      Timeout := none }
    (by decide) rfl rfl rfl rfl rfl rfl

/-- C10, as stated, fails: a response handler that returns both a non-nil usage
(3 input, 5 output tokens) and an error makes `DoHelper` return the zero usage,
not that usage. -/
theorem C10_usage_dropped_on_error :
    ∃ out : Outcome,
      DoHelper sampleEnv usageAndErrorAdaptor sampleContext sampleMeta [] = some out ∧
      (usageAndErrorAdaptor.DoResponse sampleMeta sampleContext.Request
        { StatusCode := 200, Header := [], Body := [] }).exec sampleSink sampleMeta
        = some { sink := sampleSink, meta := sampleMeta, usage := some sampleUsage,
                 err := some sampleRelayError, written := [] } ∧
      out.err = some sampleRelayError ∧ out.usage = Usage.zero ∧ out.usage ≠ sampleUsage := by
  obtain ⟨out, h1, h2, h3, -⟩ := DoHelper_handled sampleEnv usageAndErrorAdaptor sampleContext
    sampleMeta [] (by simp) { RequestBody := [1, 2, 3], ResponseBody := [], FirstByteAt := none }
    { StatusCode := 200, Header := [], Body := [] }
    { sink := sampleSink, meta := sampleMeta, usage := some sampleUsage,
      err := some sampleRelayError, written := [] }
    (by decide) rfl rfl rfl
  refine ⟨out, h1, rfl, h3, h2, ?_⟩
  rw [h2]
  decide

/-- C10, amended: for every result (usage, err) the response handler returns,
`handleResponse` resolves the usage as that usage if it is non-nil, otherwise the
zero usage with the error propagated if err is non-nil, otherwise the running
usage of the Meta; `DoHelper` returns this resolved usage when err is nil, and the
zero usage together with the error when err is non-nil (also when the handler
returned a usage). -/
theorem C10_usage_resolution (env : Env) (a : Adaptor) (c : Context) (m : Meta)
    (pool : List Buffer) (hpool : ∀ b ∈ pool, b.data = []) (detail : RequestDetail)
    (resp : Response) (o : ExecOut)
    (hbody : getRequestBody m c RequestDetail.empty = (detail, none))
    (herr : (prepareAndDoRequest env a c m).err = none)
    (hresp : (prepareAndDoRequest env a c m).resp = some resp)
    (hexec : (a.DoResponse (prepareAndDoRequest env a c m).meta c.Request resp).exec
      (gin.Header c.Writer "Content-Type" (resp.Header.Get "Content-Type"))
      (prepareAndDoRequest env a c m).meta = some o) :
    (∃ h : HandleOut,
      handleResponse env a c (prepareAndDoRequest env a c m).meta resp detail pool = some h ∧
      h.err = o.err ∧
      h.usage = (match o.usage, o.err with
        | some usage, _ => usage
        | none, some _ => Usage.zero
        | none, none => o.meta.RequestUsage)) ∧
    (∃ out : Outcome, DoHelper env a c m pool = some out ∧
      out.err = o.err ∧
      out.usage = (match o.err, o.usage with
        | some _, _ => Usage.zero
        | none, some usage => usage
        | none, none => o.meta.RequestUsage)) := by
  constructor
  · have key := handleResponse_spec env a c (prepareAndDoRequest env a c m).meta resp detail
      pool hpool
    rw [hexec] at key
    obtain ⟨h, hh, h1, h2, -⟩ := key
    exact ⟨h, hh, h2, h1⟩
  · obtain ⟨out, h1, h2, h3, -⟩ :=
      DoHelper_handled env a c m pool hpool detail resp o hbody herr hresp hexec
    exact ⟨out, h1, h3, h2⟩

/-- Witness of the amended C10: the handler of `okAdaptor` returns a usage and no
error, and `DoHelper` returns that usage. -/
theorem C10_usage_resolution_witness :
    ∃ out : Outcome, DoHelper sampleEnv okAdaptor sampleContext sampleMeta [] = some out ∧
      out.err = none ∧ out.usage = sampleUsage :=
  (C10_usage_resolution sampleEnv okAdaptor sampleContext sampleMeta [] (by simp)
    { RequestBody := [1, 2, 3], ResponseBody := [], FirstByteAt := none }
    { StatusCode := 200, Header := [], Body := [] }
    { sink := { sampleSink with received := [Chunk.bytes [7, 8, 9]] }, meta := sampleMeta,
      usage := some sampleUsage, err := none, written := [Chunk.bytes [7, 8, 9]] }
    (by decide) rfl rfl rfl).2

/-- C11 fails on the code at a transport failure: `DoRequest` fails with a wrapped
`context.DeadlineExceeded`, `DoHelper` returns the 504 request_timeout error and a
detail record whose response body is empty, although the JSON form of that error
is not; on the sibling path of a nil response the response body is the JSON form
of the returned error. -/
theorem C11_transport_failure_leaves_response_body_empty :
    (∃ (out : Outcome) (e : ErrorWithStatusCode) (d : RequestDetail),
      DoHelper sampleEnv timeoutAdaptor sampleContext sampleMeta [] = some out ∧
      out.err = some e ∧ e.StatusCode = 504 ∧ e.Error.Code = "request_timeout" ∧
      out.detail = some d ∧ d.ResponseBody = [] ∧ sampleEnv.JSONOrEmpty e = [123, 125]) ∧
    (∃ (out : Outcome) (e : ErrorWithStatusCode) (d : RequestDetail),
      DoHelper sampleEnv nilResponseAdaptor sampleContext sampleMeta [] = some out ∧
      out.err = some e ∧ e.StatusCode = 500 ∧
      out.detail = some d ∧ d.ResponseBody = sampleEnv.JSONOrEmpty e) := by
  constructor
  · exact ⟨_, _, _, DoHelper_prepare_error sampleEnv timeoutAdaptor sampleContext sampleMeta []
      { RequestBody := [1, 2, 3], ResponseBody := [], FirstByteAt := none } _ (by decide) rfl,
      rfl, rfl, rfl, rfl, rfl, rfl⟩
  · exact ⟨_, _, _, DoHelper_nil_response sampleEnv nilResponseAdaptor sampleContext sampleMeta []
      { RequestBody := [1, 2, 3], ResponseBody := [], FirstByteAt := none } (by decide) rfl rfl,
      rfl, rfl, rfl, rfl⟩

/-- C12: for the three binary-upload modes and for every call whose Content-Type
does not contain "/json", `getRequestBody` returns no error and leaves the detail
record as it was whatever the body reader would answer (a failing reader
included), so the request body recorded by `DoHelper` is empty; for every other
call it records exactly the bytes the body reader returns, or, when the read
fails, returns a status-400 error with code "get_request_body_failed", and then
`DoHelper` returns a nil detail record and invokes no adaptor method. -/
theorem C12_request_body_capture (m : Meta) (c : Context) (detail : RequestDetail) :
    ((m.Mode = Mode.AudioTranscription ∨ m.Mode = Mode.AudioTranslation ∨
        m.Mode = Mode.ImagesEdits ∨
        strings.Contains (c.GetHeader "Content-Type") "/json" = false) →
      ∀ r : Except GoError (List Byte),
        getRequestBody m { c with Request := { c.Request with BodyRead := r } } detail
          = (detail, none) ∧
        (getRequestBody m { c with Request := { c.Request with BodyRead := r } }
          RequestDetail.empty).1.RequestBody = []) ∧
    (m.Mode ≠ Mode.AudioTranscription → m.Mode ≠ Mode.AudioTranslation →
      m.Mode ≠ Mode.ImagesEdits →
      strings.Contains (c.GetHeader "Content-Type") "/json" = true →
      (∀ b : List Byte, c.Request.BodyRead = .ok b →
        getRequestBody m c detail = ({ detail with RequestBody := b }, none)) ∧
      (∀ e : GoError, c.Request.BodyRead = .error e →
        ∃ err : ErrorWithStatusCode,
          getRequestBody m c detail = (detail, some err) ∧
          err.StatusCode = 400 ∧ err.Error.Code = "get_request_body_failed" ∧
          ∀ (env : Env) (a : Adaptor) (pool : List Buffer),
            DoHelper env a c m pool =
              some { usage := Usage.zero, detail := none, err := some err, meta := m,
                     c := c, pool := pool, calls := [] })) := by
  constructor
  · intro hskip r
    have hskip1 : ∀ d : RequestDetail,
        getRequestBody m { c with Request := { c.Request with BodyRead := r } } d = (d, none) := by
      intro d
      unfold getRequestBody
      by_cases hmode : m.Mode = Mode.AudioTranscription ∨ m.Mode = Mode.AudioTranslation ∨
          m.Mode = Mode.ImagesEdits
      · rw [if_pos hmode]
      · rw [if_neg hmode]
        have hct : strings.Contains (c.GetHeader "Content-Type") "/json" = false := by
          rcases hskip with h | h | h | h
          · exact absurd (Or.inl h) hmode
          · exact absurd (Or.inr (Or.inl h)) hmode
          · exact absurd (Or.inr (Or.inr h)) hmode
          · exact h
        have hct1 : strings.Contains
            (Context.GetHeader { c with Request := { c.Request with BodyRead := r } }
              "Content-Type") "/json" = false := hct
        simp [hct1]
    exact ⟨hskip1 detail, by rw [hskip1]; rfl⟩
  · intro h1 h2 h3 hct
    have hmode : ¬ (m.Mode = Mode.AudioTranscription ∨ m.Mode = Mode.AudioTranslation ∨
        m.Mode = Mode.ImagesEdits) := by
      rintro (h | h | h)
      · exact h1 h
      · exact h2 h
      · exact h3 h
    constructor
    · intro b hb
      unfold getRequestBody
      rw [if_neg hmode]
      simp [hct, hb]
    · intro e he
      have hg : ∀ d : RequestDetail, getRequestBody m c d =
          (d, some (openai.ErrorWrapperWithMessage ("get request body failed: " ++ e.Error)
            "get_request_body_failed" http.StatusBadRequest)) := by
        intro d
        unfold getRequestBody
        rw [if_neg hmode]
        simp [hct, he]
      refine ⟨_, hg detail, rfl, rfl, ?_⟩
      intro env a pool
      exact DoHelper_body_error env a c m pool _ _ (hg RequestDetail.empty)

/-- Witness of C12: an audio-transcription call whose body reader would fail. -/
theorem C12_request_body_capture_witness :
    getRequestBody audioMeta unreadableContext RequestDetail.empty
      = (RequestDetail.empty, none) :=
  ((C12_request_body_capture audioMeta unreadableContext RequestDetail.empty).1
    (Or.inl rfl) unreadableContext.Request.BodyRead).1

/-- C13: with the pool as an explicit collection of buffers, `putBuffer` always
resets the buffer to length 0 (keeping its capacity), adds it to the pool when its
capacity is at most 524288 and leaves the pool unchanged otherwise; every
`getBuffer` and `putBuffer` preserves the invariant that every pooled buffer is
empty with capacity at most 524288, `getBuffer` hands out such a buffer, and after
any sequence of operations from the empty pool the invariant holds, so no buffer
with capacity above the ceiling is ever in the pool. -/
theorem C13_pool_invariant :
    maxBufferSize = 524288 ∧
    (∀ (pool : List Buffer) (buf : Buffer),
      (putBuffer pool buf).1.Len = 0 ∧ (putBuffer pool buf).1.Cap = buf.Cap ∧
      (buf.Cap ≤ maxBufferSize → (putBuffer pool buf).2 = (putBuffer pool buf).1 :: pool) ∧
      (maxBufferSize < buf.Cap → (putBuffer pool buf).2 = pool)) ∧
    (∀ (pool : List Buffer) (op : PoolOp), poolInvariant pool → poolInvariant (op.apply pool)) ∧
    (∀ (pool : List Buffer) (pick : Nat), poolInvariant pool →
      (getBuffer pool pick).1.Len = 0 ∧ (getBuffer pool pick).1.Cap ≤ maxBufferSize) ∧
    (∀ ops : List PoolOp, poolInvariant (runPool ops [])) := by
  have hput : ∀ (pool : List Buffer) (buf : Buffer),
      (putBuffer pool buf).1.Len = 0 ∧ (putBuffer pool buf).1.Cap = buf.Cap ∧
      (buf.Cap ≤ maxBufferSize → (putBuffer pool buf).2 = (putBuffer pool buf).1 :: pool) ∧
      (maxBufferSize < buf.Cap → (putBuffer pool buf).2 = pool) := by
    intro pool buf
    unfold putBuffer
    by_cases hcap : buf.Reset.Cap > maxBufferSize
    · have hc : maxBufferSize < buf.Cap := hcap
      simp only [hcap, if_true]
      exact ⟨rfl, rfl, fun h => absurd h (Nat.not_le.2 hc), fun _ => trivial⟩
    · have hc : buf.Cap ≤ maxBufferSize := Nat.le_of_not_lt hcap
      simp only [hcap, if_false]
      exact ⟨rfl, rfl, fun _ => trivial, fun h => absurd hc (Nat.not_le.2 h)⟩
  have hstep : ∀ (pool : List Buffer) (op : PoolOp),
      poolInvariant pool → poolInvariant (op.apply pool) := by
    intro pool op hinv
    cases op with
    | get pick =>
      show poolInvariant (getBuffer pool pick).2
      unfold getBuffer
      cases hget : pool.get? pick with
      | none => exact hinv
      | some buf => exact fun b hb => hinv b (List.mem_of_mem_eraseIdx hb)
    | put buf =>
      show poolInvariant (putBuffer pool buf).2
      obtain ⟨h1, h2, h3, h4⟩ := hput pool buf
      rcases Nat.lt_or_ge maxBufferSize buf.Cap with hc | hc
      · rw [h4 hc]; exact hinv
      · rw [h3 hc]
        intro b hb
        rcases List.mem_cons.1 hb with h | h
        · rw [h]; exact ⟨h1, by rw [h2]; exact hc⟩
        · exact hinv b h
  refine ⟨by decide, hput, hstep, ?_, ?_⟩
  · intro pool pick hinv
    unfold getBuffer
    cases hget : pool.get? pick with
    | none => exact ⟨rfl, Nat.le_refl _⟩
    | some buf => exact hinv buf (List.get?_mem hget)
  · intro ops
    have hgen : ∀ (ops : List PoolOp) (pool : List Buffer),
        poolInvariant pool → poolInvariant (runPool ops pool) := by
      intro ops
      induction ops with
      | nil => exact fun _ h => h
      | cons op ops ih => exact fun pool h => ih (op.apply pool) (hstep pool op h)
    exact hgen ops [] (fun b hb => absurd hb (List.not_mem_nil b))

/-- Witness of C13: putting a buffer grown beyond the ceiling into a pool that
holds one fresh buffer leaves the pool as it was. -/
theorem C13_pool_invariant_witness :
    poolInvariant [Buffer.New maxBufferSize] ∧
    poolInvariant ((PoolOp.put grownBuffer).apply [Buffer.New maxBufferSize]) ∧
    (putBuffer [Buffer.New maxBufferSize] grownBuffer).2 = [Buffer.New maxBufferSize] := by
  have hinv : poolInvariant [Buffer.New maxBufferSize] := by
    intro b hb
    rw [List.mem_singleton.1 hb]
    exact ⟨rfl, Nat.le_refl _⟩
  refine ⟨hinv, C13_pool_invariant.2.2.1 _ (PoolOp.put grownBuffer) hinv, ?_⟩
  exact (C13_pool_invariant.2.1 [Buffer.New maxBufferSize] grownBuffer).2.2.2
    (by show maxBufferSize < 2 * maxBufferSize + 7; omega)

/-- C14: for a call that passes body capture, a failing `ConvertRequest` makes
`DoHelper` return status 400 with code "convert_request_failed", a failing
`GetRequestURL` status 400 with code "get_request_url_failed", and a failing
`SetupRequestHeader` status 500 with code "setup_request_header_failed"; each time
the usage is zero, the Meta is as the failing method left it, the context and the
pool are untouched, and the stage methods invoked are exactly those up to the
failing one. Whatever `DoHelper` returns, the stage methods invoked are an initial
part of ConvertRequest, GetRequestURL, SetupRequestHeader, DoRequest, DoResponse,
in that order; and this is what the methods themselves observe: with an adaptor
that records the name of each of its methods on entry, the names found in the
store on return are the names of exactly those stage methods, in that order. -/
theorem C14_stage_failures_and_order (env : Env) (a : Adaptor) (c : Context) (m : Meta)
    (pool : List Buffer) (detail : RequestDetail)
    (hbody : getRequestBody m c RequestDetail.empty = (detail, none)) :
    (∀ (m1 : Meta) (cr : ConvertResult) (e : GoError),
      a.ConvertRequest m c.Request = (m1, cr) → cr.err = some e →
      ∃ out : Outcome, DoHelper env a c m pool = some out ∧ out.usage = Usage.zero ∧
        out.err = some { StatusCode := 400,
                         Error := { Message := "convert request failed: " ++ e.Error,
                                    Code := "convert_request_failed" } } ∧
        out.calls = [Call.ConvertRequest] ∧
        out.detail = some detail ∧ out.meta = m1 ∧ out.c = c ∧ out.pool = pool) ∧
    (∀ (m1 m3 : Meta) (cr : ConvertResult) (url : String) (e : GoError),
      a.ConvertRequest m c.Request = (m1, cr) → cr.err = none →
      a.GetRequestURL
        (if m1.Channel.BaseURL == "" then { m1 with Channel := { BaseURL := a.GetBaseURL } }
         else m1) = (m3, url, some e) →
      ∃ out : Outcome, DoHelper env a c m pool = some out ∧ out.usage = Usage.zero ∧
        out.err = some { StatusCode := 400,
                         Error := { Message := "get request url failed: " ++ e.Error,
                                    Code := "get_request_url_failed" } } ∧
        stagesOf out.calls = [Call.ConvertRequest, Call.GetRequestURL] ∧
        out.detail = some detail ∧ out.meta = m3 ∧ out.c = c ∧ out.pool = pool) ∧
    (∀ (m1 m3 m4 : Meta) (cr : ConvertResult) (url : String) (req req1 : OutRequest)
        (e : GoError),
      a.ConvertRequest m c.Request = (m1, cr) → cr.err = none →
      a.GetRequestURL
        (if m1.Channel.BaseURL == "" then { m1 with Channel := { BaseURL := a.GetBaseURL } }
         else m1) = (m3, url, none) →
      http.NewRequestWithContext env
        (if m3.ModelConfig.Timeout > 0 then some m3.ModelConfig.Timeout else none)
        cr.method url cr.body = .ok req →
      a.SetupRequestHeader m3 c.Request
        { req with Header := assembledHeader req cr.header } = (m4, req1, some e) →
      ∃ out : Outcome, DoHelper env a c m pool = some out ∧ out.usage = Usage.zero ∧
        out.err = some { StatusCode := 500,
                         Error := { Message := "setup request header failed: " ++ e.Error,
                                    Code := "setup_request_header_failed" } } ∧
        stagesOf out.calls
          = [Call.ConvertRequest, Call.GetRequestURL, Call.SetupRequestHeader] ∧
        out.detail = some detail ∧ out.meta = m4 ∧ out.c = c ∧ out.pool = pool) ∧
    (∀ out : Outcome, DoHelper env a c m pool = some out → stagesOf out.calls <+: stageOrder) ∧
    (∀ out : Outcome, DoHelper env (recording a) c m pool = some out →
      out.meta.trace = m.trace ++ (stagesOf out.calls).map Call.name ∧
      (stagesOf out.calls).map Call.name <+: stageOrder.map Call.name ∧
      (m.trace = [] → out.meta.trace <+: stageOrder.map Call.name)) := by
  have horder : ∀ (b : Adaptor) (out : Outcome),
      DoHelper env b c m pool = some out → stagesOf out.calls <+: stageOrder := by
    intro b out hout
    have hst := prepareAndDoRequest_stages env b c m
    have hpre : stagesOf (prepareAndDoRequest env b c m).calls <+: stageOrder := by
      rcases hst with h | h | h | h
      · rw [h.1]; exact ⟨_, rfl⟩
      · rw [h.1]; exact ⟨_, rfl⟩
      · rw [h.1]; exact ⟨_, rfl⟩
      · rw [h]; exact ⟨_, rfl⟩
    cases hpe : (prepareAndDoRequest env b c m).err with
    | some e =>
      rw [DoHelper_prepare_error env b c m pool detail e hbody hpe] at hout
      simp only [Option.some.injEq] at hout
      rw [← hout]
      exact hpre
    | none =>
      cases hpr : (prepareAndDoRequest env b c m).resp with
      | none =>
        rw [DoHelper_nil_response env b c m pool detail hbody hpe hpr] at hout
        simp only [Option.some.injEq] at hout
        rw [← hout]
        exact hpre
      | some resp =>
        have hfour : stagesOf (prepareAndDoRequest env b c m).calls =
            [Call.ConvertRequest, Call.GetRequestURL, Call.SetupRequestHeader,
              Call.DoRequest] := by
          rcases hst with h | h | h | h
          · exact absurd hpe h.2
          · exact absurd hpe h.2
          · exact absurd hpe h.2
          · exact h
        have hcalls : out.calls = (prepareAndDoRequest env b c m).calls ++ [Call.DoResponse] := by
          simp only [DoHelper, hbody, hpe, hpr] at hout
          cases hh : handleResponse env b c (prepareAndDoRequest env b c m).meta resp detail
            pool with
          | none => rw [hh] at hout; simp at hout
          | some h =>
            rw [hh] at hout
            simp only at hout
            cases hhe : h.err with
            | some e =>
              rw [hhe] at hout
              simp only [Option.some.injEq] at hout
              rw [← hout]
            | none =>
              rw [hhe] at hout
              simp only [Option.some.injEq] at hout
              rw [← hout]
        rw [hcalls]
        have : stagesOf ((prepareAndDoRequest env b c m).calls ++ [Call.DoResponse])
            = stageOrder := by
          unfold stagesOf at hfour ⊢
          rw [List.filter_append, hfour]
          rfl
        rw [this]
  refine ⟨?_, ?_, ?_, horder a, ?_⟩
  · intro m1 cr e hc hce
    have hp : prepareAndDoRequest env a c m =
        { meta := m1, calls := [Call.ConvertRequest], resp := none,
          err := some (openai.ErrorWrapperWithMessage ("convert request failed: " ++ e.Error)
            "convert_request_failed" http.StatusBadRequest) } := by
      simp only [prepareAndDoRequest, hc, hce]
    have h := DoHelper_prepare_error env a c m pool detail _ hbody (by rw [hp])
    rw [h, hp]
    exact ⟨_, rfl, rfl, rfl, rfl, rfl, rfl, rfl, rfl⟩
  · intro m1 m3 cr url e hc hce hurl
    have hp : (prepareAndDoRequest env a c m).err =
          some (openai.ErrorWrapperWithMessage ("get request url failed: " ++ e.Error)
            "get_request_url_failed" http.StatusBadRequest) ∧
        stagesOf (prepareAndDoRequest env a c m).calls
          = [Call.ConvertRequest, Call.GetRequestURL] ∧
        (prepareAndDoRequest env a c m).meta = m3 := by
      simp only [prepareAndDoRequest, hc, hce]
      cases hb : (m1.Channel.BaseURL == "") with
      | true =>
        rw [hb, if_pos rfl] at hurl
        simp [hurl, stagesOf]
      | false =>
        rw [hb, if_neg Bool.false_ne_true] at hurl
        simp [hurl, stagesOf]
    have h := DoHelper_prepare_error env a c m pool detail _ hbody hp.1
    rw [h]
    exact ⟨_, rfl, rfl, rfl, hp.2.1, rfl, hp.2.2, rfl, rfl⟩
  · intro m1 m3 m4 cr url req req1 e hc hce hurl hnew hsetup
    have hp : (prepareAndDoRequest env a c m).err =
          some (openai.ErrorWrapperWithMessage ("setup request header failed: " ++ e.Error)
            "setup_request_header_failed" http.StatusInternalServerError) ∧
        stagesOf (prepareAndDoRequest env a c m).calls
          = [Call.ConvertRequest, Call.GetRequestURL, Call.SetupRequestHeader] ∧
        (prepareAndDoRequest env a c m).meta = m4 := by
      simp only [prepareAndDoRequest, hc, hce]
      cases hb : (m1.Channel.BaseURL == "") with
      | true =>
        rw [hb, if_pos rfl] at hurl
        simp [hurl, hnew, setupRequestHeader, hsetup, stagesOf]
      | false =>
        rw [hb, if_neg Bool.false_ne_true] at hurl
        simp [hurl, hnew, setupRequestHeader, hsetup, stagesOf]
    have h := DoHelper_prepare_error env a c m pool detail _ hbody hp.1
    rw [h]
    exact ⟨_, rfl, rfl, rfl, hp.2.1, rfl, hp.2.2, rfl, rfl⟩
  · intro out hout
    have htrace := DoHelper_recording env a c m pool out hout
    have hpre : (stagesOf out.calls).map Call.name <+: stageOrder.map Call.name := by
      obtain ⟨rest, hrest⟩ := horder (recording a) out hout
      exact ⟨rest.map Call.name, by rw [← hrest, List.map_append]⟩
    refine ⟨htrace, hpre, ?_⟩
    intro hempty
    rw [htrace, hempty, List.nil_append]
    exact hpre

/-- Witness of C14: with an adaptor that records its own invocations and whose
every stage succeeds, the names found in the store when `DoHelper` returns are the
five stage methods in pipeline order. -/
theorem C14_stage_failures_and_order_witness :
    ∃ out : Outcome,
      DoHelper sampleEnv (recording okAdaptor) sampleContext sampleMeta [] = some out ∧
      out.err = none ∧
      out.meta.trace = ["ConvertRequest", "GetRequestURL", "SetupRequestHeader", "DoRequest",
        "DoResponse"] := by
  obtain ⟨out, hD, -, herr, -, -, hcalls, -⟩ :=
    DoHelper_handled sampleEnv (recording okAdaptor) sampleContext sampleMeta [] (by simp)
      { RequestBody := [1, 2, 3], ResponseBody := [], FirstByteAt := none } sampleResponse
      { sink := { sampleSink with received := [Chunk.bytes [7, 8, 9]] },
        meta := (prepareAndDoRequest sampleEnv (recording okAdaptor) sampleContext
          sampleMeta).meta.Set traceKey (Value.names
            ((prepareAndDoRequest sampleEnv (recording okAdaptor) sampleContext
              sampleMeta).meta.trace ++ ["DoResponse"])),
        usage := some sampleUsage, err := none, written := [Chunk.bytes [7, 8, 9]] }
      (by decide) rfl rfl rfl
  have h := ((C14_stage_failures_and_order sampleEnv okAdaptor sampleContext sampleMeta []
    { RequestBody := [1, 2, 3], ResponseBody := [], FirstByteAt := none } (by decide)).2.2.2.2
    out hD).1
  refine ⟨out, hD, herr, ?_⟩
  rw [h, hcalls]
  rfl

/-- C15: for every registry, the family `GetModelList` returns a list as long as
the registry has entries, which is a permutation of the configs of the entries
(each entry contributes its config once and nothing else appears), in whatever
order the entries are visited. -/
theorem C15_model_list_is_registry_configs (reg : aws.Registry) :
    (aws.Adaptor.GetModelList reg).length = reg.adaptors.length ∧
    (aws.Adaptor.GetModelList reg).Perm (reg.adaptors.map (fun e => e.2.config)) ∧
    (∀ cfg : ModelConfig,
      cfg ∈ aws.Adaptor.GetModelList reg ↔ ∃ e ∈ reg.adaptors, e.2.config = cfg) ∧
    (∀ reg2 : aws.Registry, reg2.adaptors.Perm reg.adaptors →
      (aws.Adaptor.GetModelList reg2).Perm (aws.Adaptor.GetModelList reg)) := by
  refine ⟨?_, ?_, ?_, ?_⟩
  · rw [aws.Adaptor.GetModelList_eq, List.length_map]
  · rw [aws.Adaptor.GetModelList_eq]
  · intro cfg
    rw [aws.Adaptor.GetModelList_eq, List.mem_map]
  · intro reg2 hperm
    rw [aws.Adaptor.GetModelList_eq, aws.Adaptor.GetModelList_eq]
    exact hperm.map _

/-- Witness of C15: the two listings of the registry with the models a and b give
model lists that are permutations of each other. -/
theorem C15_model_list_is_registry_configs_witness :
    (aws.Adaptor.GetModelList swappedRegistry).Perm (aws.Adaptor.GetModelList sampleRegistry) :=
  (C15_model_list_is_registry_configs sampleRegistry).2.2.2 swappedRegistry
    (List.Perm.swap _ _ [])

/-- C16: the outbound header map that `setupRequestHeader` hands to
`Adaptor.SetupRequestHeader` is the map of the request with Content-Type set to its
existing value if non-empty and to "application/json; charset=utf-8" otherwise,
then overridden key by key with the adaptor-returned map H: every key of H (exact
match) carries exactly the value list of H, Content-Type not in H carries the
single value just described, every other key is as in the request. In particular
the outbound Content-Type is the default when neither the request nor H under the
exact key supplies one. -/
theorem C16_assembled_header (req : OutRequest) :
    (∀ (H : Header) (k : String),
      (assembledHeader req (some H)).lookup k =
        match H.lookup k with
        | some vs => some vs
        | none =>
          if k = "Content-Type" then
            some [if req.Header.Get "Content-Type" = "" then "application/json; charset=utf-8"
                  else req.Header.Get "Content-Type"]
          else req.Header.lookup k) ∧
    (∀ k : String,
      (assembledHeader req none).lookup k =
        if k = "Content-Type" then
          some [if req.Header.Get "Content-Type" = "" then "application/json; charset=utf-8"
                else req.Header.Get "Content-Type"]
        else req.Header.lookup k) ∧
    (∀ H : Header, req.Header.Get "Content-Type" = "" → H.lookup "Content-Type" = none →
      (assembledHeader req (some H)).Get "Content-Type" = "application/json; charset=utf-8") ∧
    (∀ (a : Adaptor) (c : Context) (m : Meta) (header : Option Header),
      (setupRequestHeader a c m req header).1 =
        (a.SetupRequestHeader m c.Request
          { req with Header := assembledHeader req header }).1 ∧
      (setupRequestHeader a c m req header).2.1 =
        (a.SetupRequestHeader m c.Request
          { req with Header := assembledHeader req header }).2.1) := by
  have hbase : ∀ k : String,
      (assembledHeader req none).lookup k =
        if k = "Content-Type" then
          some [if req.Header.Get "Content-Type" = "" then "application/json; charset=utf-8"
                else req.Header.Get "Content-Type"]
        else req.Header.lookup k := by
    intro k
    simp only [assembledHeader, mergeHeader, Header.Set, Header.lookup_assign, beq_iff_eq]
  have hmerge : ∀ (H : Header) (k : String),
      (assembledHeader req (some H)).lookup k =
        match H.lookup k with
        | some vs => some vs
        | none =>
          if k = "Content-Type" then
            some [if req.Header.Get "Content-Type" = "" then "application/json; charset=utf-8"
                  else req.Header.Get "Content-Type"]
          else req.Header.lookup k := by
    intro H k
    have h0 := hbase k
    simp only [assembledHeader, mergeHeader] at h0
    simp only [assembledHeader]
    rw [mergeHeader_lookup]
    cases H.lookup k with
    | some vs => rfl
    | none => exact h0
  refine ⟨hmerge, hbase, ?_, ?_⟩
  · intro H hreq hH
    have h1 := hmerge H "Content-Type"
    rw [hH] at h1
    simp only [hreq, if_true] at h1
    unfold Header.Get
    rw [h1]
  · intro a c m header
    simp only [setupRequestHeader]
    generalize a.SetupRequestHeader m c.Request _ = r
    obtain ⟨m1, req1, e⟩ := r
    cases e <;> exact ⟨rfl, rfl⟩

/-- Witness of C16: the request carries no Content-Type and the adaptor returns
one only under the lower-case key, so the outbound Content-Type is the default. -/
theorem C16_assembled_header_witness :
    (assembledHeader sampleOutRequest (some sampleAdaptorHeader)).Get "Content-Type"
      = "application/json; charset=utf-8" :=
  (C16_assembled_header sampleOutRequest).2.2.1 sampleAdaptorHeader (by decide) (by decide)

/-- C17: whatever the response handler returns (a usage, an error, both or
neither), when `handleResponse` returns, `c.Writer` is again the writer that was
installed on entry (the same writer object, having received the calls of the
handler), the capture buffer has been handed to `putBuffer` and is left with
length 0, and the first-byte timestamp of the detail record is that of the
capturing writer: zero if nothing was written, otherwise the time of the first
`Write` or `WriteString` call. On the writer itself a call sets the timestamp
only if it is still zero. -/
theorem C17_writer_restored_and_buffer_released (env : Env) (a : Adaptor) (c : Context)
    (m : Meta) (resp : Response) (detail : RequestDetail) (pool : List Buffer)
    (hpool : ∀ b ∈ pool, b.data = []) (o : ExecOut)
    (hexec : (a.DoResponse m c.Request resp).exec
      (gin.Header c.Writer "Content-Type" (resp.Header.Get "Content-Type")) m = some o) :
    (∃ (h : HandleOut) (body : Buffer),
      handleResponse env a c m resp detail pool = some h ∧
      h.err = o.err ∧
      h.installed = GinWriter.raw h.c.Writer ∧
      h.c.Writer.id = c.Writer.id ∧ h.c.Writer.reply = c.Writer.reply ∧
      h.c.Writer.received = c.Writer.received ++ o.written ∧
      body.data = (o.written.flatMap Chunk.payload).take maxBufferSize ∧
      (h.released, h.pool) = putBuffer (getBuffer pool env.pick).2 body ∧
      h.released.Len = 0 ∧
      h.detail.FirstByteAt = (if o.written.isEmpty then none else some (env.clock 0))) ∧
    (∀ (rw : responseWriter) (now : Nat) (ch : Chunk), rw.body.Len ≤ maxBufferSize →
      ∃ (rw1 : responseWriter) (r : WriteResult), rw.call now ch = some (rw1, r) ∧
        rw1.firstByteAt = (match rw.firstByteAt with
          | none => some now
          | some t => some t)) := by
  constructor
  · have key := handleResponse_spec env a c m resp detail pool hpool
    rw [hexec] at key
    obtain ⟨h, hh, -, h2, -, h4, h5, -, -, h8, h9, -⟩ := key
    obtain ⟨h', body, hh', hb1, hb2⟩ :=
      handleResponse_release env a c m resp detail pool hpool o hexec
    rw [hh] at hh'
    simp only [Option.some.injEq] at hh'
    subst hh'
    have hsink := RespProg.exec_sink _ _ _ _ hexec
    refine ⟨h, body, hh, h2, ?_, ?_, ?_, ?_, hb1, hb2, ?_, h8⟩
    · rw [h5, h4]
    · rw [h4]
      simp only [hsink, gin.Header]
      split <;> rfl
    · rw [h4]
      simp only [hsink, gin.Header]
      split <;> rfl
    · rw [h4]
      simp only [hsink, gin.Header]
      split <;> rfl
    · show h.released.data.length = 0
      rw [h9]
      rfl
  · intro rw now ch hlen
    obtain ⟨body1, hcall, -⟩ := responseWriter.call_spec rw now ch hlen
    refine ⟨_, _, hcall, ?_⟩
    cases rw.firstByteAt <;> rfl

/-- Witness of C17: the handler of `okAdaptor` writes once, at clock reading 0. -/
theorem C17_writer_restored_and_buffer_released_witness :
    ∃ (h : HandleOut) (body : Buffer),
      handleResponse sampleEnv okAdaptor sampleContext sampleMeta sampleResponse
        RequestDetail.empty [] = some h ∧
      h.err = none ∧
      h.installed = GinWriter.raw h.c.Writer ∧
      h.c.Writer.id = sampleContext.Writer.id ∧ h.c.Writer.reply = sampleContext.Writer.reply ∧
      h.c.Writer.received = sampleContext.Writer.received ++ [Chunk.bytes [7, 8, 9]] ∧
      body.data = ([Chunk.bytes [7, 8, 9]].flatMap Chunk.payload).take maxBufferSize ∧
      (h.released, h.pool) = putBuffer (getBuffer [] sampleEnv.pick).2 body ∧
      h.released.Len = 0 ∧
      h.detail.FirstByteAt = some 0 :=
  (C17_writer_restored_and_buffer_released sampleEnv okAdaptor sampleContext sampleMeta
    sampleResponse RequestDetail.empty [] (by simp)
    { sink := { sampleSink with received := [Chunk.bytes [7, 8, 9]] }, meta := sampleMeta,
      usage := some sampleUsage, err := none, written := [Chunk.bytes [7, 8, 9]] } rfl).1

/-- C18: with the AWS family adaptor itself as the adaptor, for every Meta and
request `DoHelper` returns a non-nil error with the zero usage and never invokes
`DoResponse`: the family `DoRequest` always returns a nil response with a nil
error, so the call ends in the status-500 "response is nil" error unless an
earlier stage (body capture, conversion, request construction) fails with
status 400. -/
theorem C18_family_adaptor_never_succeeds (env : Env) (reg : aws.Registry) (c : Context)
    (m : Meta) (pool : List Buffer) :
    (∀ (m1 : Meta) (r : Request) (q : OutRequest),
      (awsFamily reg).DoRequest m1 r q = (m1, none, none)) ∧
    ∃ (out : Outcome) (e : ErrorWithStatusCode),
      DoHelper env (awsFamily reg) c m pool = some out ∧
      out.err = some e ∧ out.usage = Usage.zero ∧ Call.DoResponse ∉ out.calls ∧
      ((e.StatusCode = 500 ∧ e.Error.Message = "response is nil" ∧
          e.Error.Code = openai.ErrorCodeBadResponse) ∨
        (e.StatusCode = 400 ∧
          (e.Error.Code = "get_request_body_failed" ∨ e.Error.Code = "convert_request_failed" ∨
            e.Error.Code = "new_request_failed"))) := by
  refine ⟨fun _ _ _ => rfl, ?_⟩
  obtain ⟨hresp, hcalls, herr⟩ := prepareAndDoRequest_awsFamily env reg c m
  rcases hgb : getRequestBody m c RequestDetail.empty with ⟨detail, _ | err⟩
  · rcases herr with hnone | ⟨e, he, hs, hcode⟩
    · exact ⟨_, _, DoHelper_nil_response env (awsFamily reg) c m pool detail hgb hnone hresp,
        rfl, rfl, hcalls, Or.inl ⟨rfl, rfl, rfl⟩⟩
    · refine ⟨_, e, DoHelper_prepare_error env (awsFamily reg) c m pool detail e hgb he,
        rfl, rfl, hcalls, Or.inr ⟨hs, ?_⟩⟩
      rcases hcode with h | h
      · exact Or.inr (Or.inl h)
      · exact Or.inr (Or.inr h)
  · refine ⟨_, err, DoHelper_body_error env (awsFamily reg) c m pool detail err hgb,
      rfl, rfl, by simp, Or.inr ?_⟩
    have hg := hgb
    unfold getRequestBody at hg
    split at hg
    · simp at hg
    · split at hg
      · simp at hg
      · split at hg
        · simp only [Prod.mk.injEq, Option.some.injEq] at hg
          rw [← hg.2]
          exact ⟨rfl, Or.inl rfl⟩
        · simp at hg

/-- C19: for a call that reaches `handleResponse` and whose response handler
returns no error, the usage `DoHelper` returns is exactly the usage resolved by
`handleResponse`; the logger receives under `t_total` the normalised total, so
when the resolved total is 0 the returned total is still 0 while the emitted
`t_total` is the Go sum of input and output (64-bit signed, wrapping), which is
input plus output whenever that sum fits. -/
theorem C19_returned_usage_is_not_normalised (env : Env) (a : Adaptor) (c : Context)
    (m : Meta) (pool : List Buffer) (hpool : ∀ b ∈ pool, b.data = [])
    (detail : RequestDetail) (resp : Response) (o : ExecOut)
    (hbody : getRequestBody m c RequestDetail.empty = (detail, none))
    (herr : (prepareAndDoRequest env a c m).err = none)
    (hresp : (prepareAndDoRequest env a c m).resp = some resp)
    (hexec : (a.DoResponse (prepareAndDoRequest env a c m).meta c.Request resp).exec
      (gin.Header c.Writer "Content-Type" (resp.Header.Get "Content-Type"))
      (prepareAndDoRequest env a c m).meta = some o)
    (hok : o.err = none) :
    ∃ (h : HandleOut) (out : Outcome),
      handleResponse env a c (prepareAndDoRequest env a c m).meta resp detail pool = some h ∧
      DoHelper env a c m pool = some out ∧
      h.usage = (match o.usage with
        | some usage => usage
        | none => o.meta.RequestUsage) ∧
      out.err = none ∧ out.usage = h.usage ∧
      out.c.logData.get "t_total" =
        some (if h.usage.TotalTokens = 0 then int64.add h.usage.InputTokens h.usage.OutputTokens
              else h.usage.TotalTokens) ∧
      (h.usage.TotalTokens = 0 →
        out.usage.TotalTokens = 0 ∧
        out.c.logData.get "t_total"
          = some (int64.add out.usage.InputTokens out.usage.OutputTokens) ∧
        (int64.MinInt64 ≤ out.usage.InputTokens + out.usage.OutputTokens →
          out.usage.InputTokens + out.usage.OutputTokens ≤ int64.MaxInt64 →
          out.c.logData.get "t_total"
            = some (out.usage.InputTokens + out.usage.OutputTokens))) := by
  have key := handleResponse_spec env a c (prepareAndDoRequest env a c m).meta resp detail pool
    hpool
  rw [hexec] at key
  obtain ⟨h, hh, h1, h2, -⟩ := key
  obtain ⟨out, g1, g2, g3, -, -, -, -, g8, -⟩ :=
    DoHelper_handled env a c m pool hpool detail resp o hbody herr hresp hexec
  have husage : out.usage = h.usage := by
    rw [g2, h1, hok]
    cases o.usage <;> rfl
  have hlog : out.c.logData.get "t_total" =
      some (if h.usage.TotalTokens = 0 then int64.add h.usage.InputTokens h.usage.OutputTokens
            else h.usage.TotalTokens) := by
    rw [g8, hok]
    simp only []
    rw [updateUsageMetrics_get, husage, ← normalizedUsage_total]
    simp
  have hres : h.usage = (match o.usage with
      | some usage => usage
      | none => o.meta.RequestUsage) := by
    rw [h1, hok]
    cases o.usage <;> rfl
  refine ⟨h, out, hh, g1, hres, by rw [g3, hok], husage, hlog, ?_⟩
  intro hz
  have hsum : out.c.logData.get "t_total"
      = some (int64.add out.usage.InputTokens out.usage.OutputTokens) := by
    rw [hlog, if_pos hz, husage]
  refine ⟨by rw [husage]; exact hz, hsum, ?_⟩
  intro hlo hhi
  rw [hsum, int64.add_of_no_overflow _ _ hlo hhi]

/-- Witness of C19: the handler of `okAdaptor` reports 3 input and 5 output tokens
with total 0; `DoHelper` returns that usage with total 0 and the logger gets 8. -/
theorem C19_returned_usage_is_not_normalised_witness :
    ∃ out : Outcome,
      DoHelper sampleEnv okAdaptor sampleContext sampleMeta [] = some out ∧
      out.usage = sampleUsage ∧ out.usage.TotalTokens = 0 ∧
      out.c.logData.get "t_total" = some 8 := by
  obtain ⟨h, out, -, hD, hres, -, hu, -, hz⟩ :=
    C19_returned_usage_is_not_normalised sampleEnv okAdaptor sampleContext sampleMeta []
      (by simp) { RequestBody := [1, 2, 3], ResponseBody := [], FirstByteAt := none }
      sampleResponse
      { sink := { sampleSink with received := [Chunk.bytes [7, 8, 9]] }, meta := sampleMeta,
        usage := some sampleUsage, err := none, written := [Chunk.bytes [7, 8, 9]] }
      (by decide) rfl rfl rfl rfl
  have hs : h.usage = sampleUsage := hres
  have hout : out.usage = sampleUsage := by rw [hu, hs]
  obtain ⟨hz1, -, hz3⟩ := hz (by rw [hs]; rfl)
  refine ⟨out, hD, hout, hz1, ?_⟩
  rw [hz3 (by rw [hout]; decide) (by rw [hout]; decide), hout]
  rfl
